import Mathlib

/-!
Summed-Area Table (`SummedAreaTable.h`)

A shallow embedding of the single-header summed-area table
`SummedAreaTable<T = uint32_t, hasNonZeroTable>` and proofs about its
constructor (`initializeSAT`) and its rectangle queries.

Conventions of the embedding

* C++ `int` values (dimensions, coordinates, loop counters, offsets) are `Int`.
  The constructor forms `width*height` in `int` before any check, and its model
  tests the product against the `int` range. Every offset formed afterwards from
  coordinates inside the grid is below `width*height`, hence inside that range.
* The accumulator type `T` is the default `uint32_t`: an accumulator value is an
  `Int` in `[0, 2^32)` and every arithmetic result is reduced by `toT`
  (`% 2^32`), also when an operand is a (possibly negative) sample.
* `std::vector<T>` and the caller's sample buffer are `Array Int`; a read or a
  write outside the array is undefined behaviour and is the result `none`.
* The pixel count of `getAverage` is formed from the caller's raw coordinates in
  32-bit `int`; its arithmetic wraps around (`toInt32`).
* `double` results are exact rationals (`ℚ`): the conversions of an accumulator
  value and of an `int` to `double` are exact, and the division is not rounded.
-/

namespace SummedAreaTable

/-! ## Memory and machine arithmetic -/

/-- Largest value of a 32-bit `int`. -/
def INT_MAX : Int := 2147483647

/-- Smallest value of a 32-bit `int`. -/
def INT_MIN : Int := -2147483648

/-- Number of values of the accumulator type `T = uint32_t`. -/
def T_MOD : Int := 4294967296

/-- Conversion of an integer result to the accumulator type `T = uint32_t`
(arithmetic of `T` is arithmetic modulo `2^32`). -/
def toT (z : Int) : Int := z % T_MOD

/-- Conversion of an integer result to the 32-bit `int` type by two's-complement
wrap-around. The language leaves signed overflow undefined; wrapping is what the compiled
code does, and it is used only for the pixel count of `getAverage`, which is formed from
coordinates that no check has bounded. -/
def toInt32 (z : Int) : Int := (z - INT_MIN) % T_MOD + INT_MIN

/-- The read `p[i]` through a pointer into an array: `none` outside the array. -/
def readAt (p : Array Int) (i : Int) : Option Int :=
  if 0 ≤ i then p[i.toNat]? else none

/-- The store `p[i] = v` through a pointer into an array: `none` outside the array. -/
def writeAt (p : Array Int) (i : Int) (v : Int) : Option (Array Int) :=
  if h : 0 ≤ i ∧ i.toNat < p.size then some (p.set ⟨i.toNat, h.2⟩ v) else none

/-- The loop body run for the counter values `i, i+1, ..., i+n-1`, in this order. -/
def iterateFrom {σ : Type} (body : Int → σ → Option σ) : Nat → Int → σ → Option σ
  | 0, _, s => some s
  | n + 1, i, s => (body i s).bind (iterateFrom body n (i + 1))

/-- The loop `for (auto i = 1; i != stop; i++) body(i)`. For `stop >= 1` the body runs
for `i = 1, ..., stop-1`. For `stop < 1` the exit test never succeeds before the counter
overflows, which is undefined behaviour (`none`). -/
def forFromOne {σ : Type} (stop : Int) (body : Int → σ → Option σ) (s : σ) : Option σ :=
  if stop < 1 then none else iterateFrom body (stop - 1).toNat 1 s

/-! ## Construction -/

/-- The private member `initializeSAT(T* ptr, Lambda l)`: fills the plane `ptr` with the
two-dimensional prefix sums of the per-offset values `l(ofs)`. -/
def initializeSAT (width_ height_ : Int) (ptr : Array Int) (l : Int → Option Int) :
    Option (Array Int) := do
  -- top-left element
  let v ← l 0
  let ptr ← writeAt ptr 0 (toT v)
  -- topmost row
  let ptr ← forFromOne width_ (fun x ptr => do
    let v ← l x
    let a ← readAt ptr (x - 1)
    writeAt ptr x (toT (v + a))) ptr
  -- leftmost column
  let ptr ← forFromOne height_ (fun y ptr => do
    let v ← l (y * width_)
    let a ← readAt ptr ((y - 1) * width_)
    writeAt ptr (y * width_) (toT (v + a))) ptr
  -- compute the rest SAT elements
  forFromOne height_ (fun y ptr =>
    forFromOne width_ (fun x ptr => do
      let v ← l (y * width_ + x)
      let a ← readAt ptr ((y - 1) * width_ + x)
      let b ← readAt ptr (y * width_ + x - 1)
      let c ← readAt ptr ((y - 1) * width_ + x - 1)
      writeAt ptr (y * width_ + x) (toT (toT (toT (v + a) + b) - c))) ptr) ptr

/-- The object state: the private members `width_`, `height_`, `sat_`, `satNZ_`. The
template argument `hasNonZeroTable` is a parameter of the type. -/
structure Table (hasNonZeroTable : Bool) where
  /-- Member `width_`. -/
  width_ : Int
  /-- Member `height_`. -/
  height_ : Int
  /-- Member `sat_`: the sum plane. -/
  sat_ : Array Int
  /-- Member `satNZ_`: the non-zero plane. -/
  satNZ_ : Array Int
  deriving DecidableEq

/-- How a call of the constructor ends. -/
inductive Outcome (α : Type) where
  /-- The constructor returned. -/
  | ok (a : α)
  /-- An `assert` failed. -/
  | assertFailed
  /-- The `std::vector` constructor threw `std::length_error`. -/
  | lengthError
  /-- Undefined behaviour: signed overflow or an access outside an array. -/
  | undefined
  deriving DecidableEq

/-- The value function of the sum plane: `[buffer](int ofs) { return buffer[ofs]; }`. -/
def sampleAt (buffer : Array Int) (ofs : Int) : Option Int :=
  readAt buffer ofs

/-- The value function of the non-zero plane:
`[buffer](int ofs) { return buffer[ofs] > 0 ? 1 : 0; }`. -/
def nonZeroAt (buffer : Array Int) (ofs : Int) : Option Int :=
  (readAt buffer ofs).map (fun v => if v > 0 then 1 else 0)

/-- The constructor `SummedAreaTable(const In* buffer, int width, int height)`.
The member initialisers run first: `sat_(width*height)` multiplies in `int` (overflow is
undefined) and converts the product to `size_t`, so that a negative product asks for more
elements than a vector can hold. Then come the two `assert`s and the plane builds. -/
def ctor (hasNonZeroTable : Bool) (buffer : Array Int) (width height : Int) :
    Outcome (Table hasNonZeroTable) :=
  if width * height < INT_MIN ∨ INT_MAX < width * height then Outcome.undefined
  else if width * height < 0 then Outcome.lengthError
  else
    let sat := mkArray (width * height).toNat (0 : Int)
    let satNZ := mkArray (if hasNonZeroTable then (width * height).toNat else 0) (0 : Int)
    if width = 0 then Outcome.assertFailed
    else if height = 0 then Outcome.assertFailed
    else
      match initializeSAT width height sat (sampleAt buffer) with
      | none => Outcome.undefined
      | some sat =>
        if hasNonZeroTable then
          match initializeSAT width height satNZ (nonZeroAt buffer) with
          | none => Outcome.undefined
          | some satNZ => Outcome.ok ⟨width, height, sat, satNZ⟩
        else Outcome.ok ⟨width, height, sat, satNZ⟩

/-! ## Queries -/

/-- The macro `CLAMP_SUMMED_AREA_TABLE_ARGS` applied to the four coordinates. With
`NO_SUMMED_AREA_TABLE_CLAMPING` defined (`noClamping = true`) the macro is empty. -/
def CLAMP_SUMMED_AREA_TABLE_ARGS (noClamping : Bool) (width_ height_ : Int)
    (x0 y0 x1 y1 : Int) : Int × Int × Int × Int :=
  if noClamping then (x0, y0, x1, y1)
  else
    let x0 := if x0 < 0 then 0 else x0
    let x0 := if x0 ≥ width_ then width_ - 1 else x0
    let x1 := if x1 < 0 then 0 else x1
    let x1 := if x1 ≥ width_ then width_ - 1 else x1
    let y0 := if y0 < 0 then 0 else y0
    let y0 := if y0 ≥ height_ then height_ - 1 else y0
    let y1 := if y1 < 0 then 0 else y1
    let y1 := if y1 ≥ height_ then height_ - 1 else y1
    let x01 := if x0 > x1 then (x1, x0) else (x0, x1)
    let y01 := if y0 > y1 then (y1, y0) else (y0, y1)
    (x01.1, y01.1, x01.2, y01.2)

/-- The body shared by `getSum` and `getNonZeroCount` after the macro: the four corner
reads of the plane `p` of row length `w`, and `D+A-B-C` in the accumulator type. -/
def cornerSum (p : Array Int) (w : Int) (x0 y0 x1 y1 : Int) : Option Int :=
  let A := if x0 > 0 ∧ y0 > 0 then readAt p ((y0 - 1) * w + x0 - 1) else some 0
  let B := if y0 > 0 then readAt p ((y0 - 1) * w + x1) else some 0
  let C := if x0 > 0 then readAt p (y1 * w + x0 - 1) else some 0
  let D := readAt p (y1 * w + x1)
  A.bind fun a => B.bind fun b => C.bind fun c => D.bind fun d =>
    some (toT (toT (toT (d + a) - b) - c))

/-- Member `T getSum(int x0, int y0, int x1, int y1) const`. -/
def getSum {b : Bool} (noClamping : Bool) (t : Table b) (x0 y0 x1 y1 : Int) : Option Int :=
  let c := CLAMP_SUMMED_AREA_TABLE_ARGS noClamping t.width_ t.height_ x0 y0 x1 y1
  cornerSum t.sat_ t.width_ c.1 c.2.1 c.2.2.1 c.2.2.2

/-- Member `T getNonZeroCount(int x0, int y0, int x1, int y1) const`. Its
`static_assert(hasNonZeroTable)` makes it a member of `Table true` only. -/
def getNonZeroCount (noClamping : Bool) (t : Table true) (x0 y0 x1 y1 : Int) : Option Int :=
  let c := CLAMP_SUMMED_AREA_TABLE_ARGS noClamping t.width_ t.height_ x0 y0 x1 y1
  cornerSum t.satNZ_ t.width_ c.1 c.2.1 c.2.2.1 c.2.2.2

/-- Member `double getAverage(int x0, int y0, int x1, int y1) const`. The pixel count
`(abs(x1-x0)+1) * (abs(y1-y0)+1)` is formed from the arguments as passed, in 32-bit `int`
(every intermediate result reduced by `toInt32`), and only then converted to `double`; the
division is exact. -/
def getAverage {b : Bool} (noClamping : Bool) (t : Table b) (x0 y0 x1 y1 : Int) : Option ℚ := do
  let sum ← getSum noClamping t x0 y0 x1 y1
  let numPixels : Int :=
    toInt32 (toInt32 (toInt32 |toInt32 (x1 - x0)| + 1) * toInt32 (toInt32 |toInt32 (y1 - y0)| + 1))
  some (if (numPixels : ℚ) > 0 then (sum : ℚ) / (numPixels : ℚ) else 0)

/-- Member `double getNonZeroAverage(int x0, int y0, int x1, int y1) const`, in exact
arithmetic. -/
def getNonZeroAverage (noClamping : Bool) (t : Table true) (x0 y0 x1 y1 : Int) : Option ℚ := do
  -- zeros don't contribute to the sum
  let sum ← getSum noClamping t x0 y0 x1 y1
  let numNonZeroPixels ← getNonZeroCount noClamping t x0 y0 x1 y1
  some (if (numNonZeroPixels : ℚ) > 0 then (sum : ℚ) / (numNonZeroPixels : ℚ) else 0)

/-- Accessor `getSAT()`. -/
def getSAT {b : Bool} (t : Table b) : Array Int := t.sat_

/-- Accessor `getSATNonZero()`. -/
def getSATNonZero {b : Bool} (t : Table b) : Array Int := t.satNZ_

/-! ## Ground truth: brute-force sums over the input -/

/-- The input sample at a flat offset. -/
def input (buffer : Array Int) (ofs : Nat) : Int := buffer.getD ofs 0

/-- Indicator of a positive sample at a flat offset. -/
def indicator (buffer : Array Int) (ofs : Nat) : Int := if input buffer ofs > 0 then 1 else 0

/-- Brute-force double sum of `f (j*width + i)` over the inclusive rectangle
`x0 <= i <= x1`, `y0 <= j <= y1`. -/
def rectSum (f : Nat → Int) (width x0 y0 x1 y1 : Nat) : Int :=
  ∑ j in Finset.Icc y0 y1, ∑ i in Finset.Icc x0 x1, f (j * width + i)

/-- Brute-force sum of the input samples over an inclusive rectangle. -/
def bruteSum (buffer : Array Int) (width x0 y0 x1 y1 : Nat) : Int :=
  rectSum (input buffer) width x0 y0 x1 y1

/-- Brute-force count of the positive input samples in an inclusive rectangle. -/
def bruteCount (buffer : Array Int) (width x0 y0 x1 y1 : Nat) : Nat :=
  ((Finset.Icc y0 y1 ×ˢ Finset.Icc x0 x1).filter
    (fun c => input buffer (c.1 * width + c.2) > 0)).card

/-- The grid of `test2` in `example.cpp`. -/
def test2Pixels : Array Int :=
  #[0, 0, 0, 2, 0, 0,
    0, 0, 2, 0, 2, 0,
    0, 0, 2, 3, 2, 0,
    0, 0, 2, 0, 2, 0]

/-- The row of `test1` in `example.cpp`. -/
def test1Pixels : Array Int := #[0, 4, 0, 2, 1, 0]

/-! ## The build with its plane accesses recorded -/

/-- One access to the plane through `ptr`, at an offset. -/
inductive Access where
  /-- The read `ptr[i]`. -/
  | read (i : Int)
  /-- The store `ptr[i] = ...`. -/
  | write (i : Int)
  deriving DecidableEq

/-- A plane together with the accesses made to it so far, the most recent first. -/
structure Traced where
  /-- The plane. -/
  ptr : Array Int
  /-- The accesses made so far, the most recent first. -/
  log : List Access
  deriving DecidableEq

/-- The read `p[i]`, recorded. -/
def readAtT (s : Traced) (i : Int) : Option (Int × Traced) :=
  (readAt s.ptr i).map fun v => (v, ⟨s.ptr, Access.read i :: s.log⟩)

/-- The store `p[i] = v`, recorded. -/
def writeAtT (s : Traced) (i : Int) (v : Int) : Option Traced :=
  (writeAt s.ptr i v).map fun p => ⟨p, Access.write i :: s.log⟩

/-- The member `initializeSAT` with every access to the plane recorded: the same statements
as `initializeSAT`, over `readAtT` and `writeAtT`. -/
def initializeSATTraced (width_ height_ : Int) (s : Traced) (l : Int → Option Int) :
    Option Traced := do
  -- top-left element
  let v ← l 0
  let s ← writeAtT s 0 (toT v)
  -- topmost row
  let s ← forFromOne width_ (fun x s => do
    let v ← l x
    let a ← readAtT s (x - 1)
    writeAtT a.2 x (toT (v + a.1))) s
  -- leftmost column
  let s ← forFromOne height_ (fun y s => do
    let v ← l (y * width_)
    let a ← readAtT s ((y - 1) * width_)
    writeAtT a.2 (y * width_) (toT (v + a.1))) s
  -- compute the rest SAT elements
  forFromOne height_ (fun y s =>
    forFromOne width_ (fun x s => do
      let v ← l (y * width_ + x)
      let a ← readAtT s ((y - 1) * width_ + x)
      let b ← readAtT a.2 (y * width_ + x - 1)
      let c ← readAtT b.2 ((y - 1) * width_ + x - 1)
      writeAtT c.2 (y * width_ + x) (toT (toT (toT (v + a.1) + b.1) - c.1))) s) s

/-- A log (most recent first) in which every store goes to an offset not stored to before
and every read goes to an offset stored to before. -/
def WellOrdered : List Access → Prop
  | [] => True
  | Access.read i :: rest => Access.write i ∈ rest ∧ WellOrdered rest
  | Access.write i :: rest => Access.write i ∉ rest ∧ WellOrdered rest

/-- The state of a recorded build in which exactly the cells `(x, y)` of the grid with
`Done x y` have been stored to, each once, and every read came after the store to its
cell. -/
def TraceInv (w h : Nat) (Done : Nat → Nat → Prop) (s : Traced) : Prop :=
  s.ptr.size = w * h ∧ WellOrdered s.log ∧
    ∀ i : Int, Access.write i ∈ s.log ↔
      ∃ x y : Nat, x < w ∧ y < h ∧ Done x y ∧ i = ((y * w + x : Nat) : Int)

/-! ## Notions used to state and prove the properties -/

/-- Exclusive prefix sum: the sum of `f (j*width + i)` over `i < a`, `j < b`. -/
def pre (f : Nat → Int) (width a b : Nat) : Int :=
  ∑ j in Finset.range b, ∑ i in Finset.range a, f (j * width + i)

/-- Cell `(x, y)` of a plane of row length `w` holds the prefix sum of `f` over
`[0, x] x [0, y]`, as an accumulator value. -/
def Cell (f : Nat → Int) (w : Nat) (p : Array Int) (x y : Nat) : Prop :=
  p[y * w + x]? = some (toT (pre f w (x + 1) (y + 1)))

/-- What the constructor establishes: the members hold the dimensions, and every cell of
each plane holds the prefix sum of its value function, as an accumulator value. -/
structure Built (b : Bool) (buffer : Array Int) (w h : Nat) (t : Table b) : Prop where
  /-- Member `width_` is the width passed. -/
  width_eq : t.width_ = (w : Int)
  /-- Member `height_` is the height passed. -/
  height_eq : t.height_ = (h : Int)
  /-- The sum plane has `w*h` entries. -/
  sat_size : t.sat_.size = w * h
  /-- The sum plane holds the prefix sums of the samples. -/
  sat_cell : ∀ x y, x < w → y < h → Cell (input buffer) w t.sat_ x y
  /-- The non-zero plane, when enabled, has `w*h` entries. -/
  satNZ_size : b = true → t.satNZ_.size = w * h
  /-- The non-zero plane, when enabled, holds the prefix sums of the indicator. -/
  satNZ_cell : b = true → ∀ x y, x < w → y < h → Cell (indicator buffer) w t.satNZ_ x y

/-- A coordinate clamped into `[0, n-1]`, as a column or row number. -/
def clampCoord (n : Nat) (v : Int) : Nat := (max 0 (min v ((n : Int) - 1))).toNat

/-! ## Memory lemmas -/

theorem readAt_natCast (p : Array Int) (n : Nat) : readAt p (n : Int) = p[n]? := by
  simp [readAt]

theorem writeAt_natCast (p : Array Int) (n : Nat) (v : Int) (h : n < p.size) :
    writeAt p (n : Int) v = some (p.set ⟨n, h⟩ v) := by
  simp [writeAt, h]

theorem iterateFrom_inv {σ : Type} (body : Int → σ → Option σ) (Inv : Nat → σ → Prop) :
    ∀ (n start : Nat) (s : σ), Inv start s →
      (∀ k s, start ≤ k → k < start + n → Inv k s →
        ∃ s', body (k : Int) s = some s' ∧ Inv (k + 1) s') →
      ∃ s', iterateFrom body n (start : Int) s = some s' ∧ Inv (start + n) s' := by
  intro n
  induction n with
  | zero =>
    intro start s h0 _
    exact ⟨s, rfl, by simpa using h0⟩
  | succ n ih =>
    intro start s h0 hstep
    obtain ⟨s1, hb, h1⟩ := hstep start s (Nat.le_refl _) (by omega) h0
    obtain ⟨s2, hr, h2⟩ := ih (start + 1) s1 h1
      (fun k s hk hlt hi => hstep k s (by omega) (by omega) hi)
    refine ⟨s2, ?_, ?_⟩
    · simp only [iterateFrom, hb, Option.some_bind]
      have : ((start : Int) + 1) = ((start + 1 : Nat) : Int) := by push_cast; rfl
      rw [this]; exact hr
    · have : start + (n + 1) = start + 1 + n := by omega
      rw [this]; exact h2

theorem forFromOne_inv {σ : Type} (body : Int → σ → Option σ) (Inv : Nat → σ → Prop)
    (stop : Nat) (hstop : 1 ≤ stop) (s : σ) (h1 : Inv 1 s)
    (hstep : ∀ k s, 1 ≤ k → k < stop → Inv k s →
      ∃ s', body (k : Int) s = some s' ∧ Inv (k + 1) s') :
    ∃ s', forFromOne (stop : Int) body s = some s' ∧ Inv stop s' := by
  obtain ⟨s', hr, hi⟩ := iterateFrom_inv body Inv (stop - 1) 1 s h1
    (fun k s hk hlt hi => hstep k s hk (by omega) hi)
  refine ⟨s', ?_, ?_⟩
  · have h2 : ¬ ((stop : Int) < 1) := by omega
    have h3 : ((stop : Int) - 1).toNat = stop - 1 := by omega
    simp only [forFromOne, h2, if_false, h3]
    exact hr
  · have : 1 + (stop - 1) = stop := by omega
    rw [this] at hi; exact hi


/-! ## Prefix sums -/

theorem pre_zero_left (f : Nat → Int) (w b : Nat) : pre f w 0 b = 0 := by
  simp [pre]

theorem pre_zero_right (f : Nat → Int) (w a : Nat) : pre f w a 0 = 0 := by
  simp [pre]

theorem pre_succ_right (f : Nat → Int) (w a b : Nat) :
    pre f w a (b + 1) = pre f w a b + ∑ i in Finset.range a, f (b * w + i) := by
  simp [pre, Finset.sum_range_succ]

theorem pre_succ_succ (f : Nat → Int) (w a b : Nat) :
    pre f w (a + 1) (b + 1)
      = f (b * w + a) + pre f w (a + 1) b + pre f w a (b + 1) - pre f w a b := by
  rw [pre_succ_right, pre_succ_right, Finset.sum_range_succ]
  ring

theorem pre_row (f : Nat → Int) (w a : Nat) :
    pre f w (a + 1) 1 = f a + pre f w a 1 := by
  rw [pre_succ_succ]
  simp [pre_zero_right]

theorem pre_col (f : Nat → Int) (w b : Nat) :
    pre f w 1 (b + 1) = f (b * w) + pre f w 1 b := by
  rw [pre_succ_succ]
  simp [pre_zero_left]

theorem rectSum_eq_pre (f : Nat → Int) (w x0 y0 x1 y1 : Nat) (hx : x0 ≤ x1) (hy : y0 ≤ y1) :
    rectSum f w x0 y0 x1 y1
      = pre f w (x1 + 1) (y1 + 1) + pre f w x0 y0 - pre f w (x1 + 1) y0 - pre f w x0 (y1 + 1) := by
  have hx1 : x0 ≤ x1 + 1 := by omega
  have hy1 : y0 ≤ y1 + 1 := by omega
  have inner : ∀ j, ∑ i in Finset.Icc x0 x1, f (j * w + i)
      = ∑ i in Finset.range (x1 + 1), f (j * w + i) - ∑ i in Finset.range x0, f (j * w + i) := by
    intro j
    rw [← Nat.Ico_succ_right, Finset.sum_Ico_eq_sub _ hx1]
  unfold rectSum pre
  rw [← Nat.Ico_succ_right, Finset.sum_Ico_eq_sub _ hy1]
  simp only [inner, Finset.sum_sub_distrib]
  ring

theorem toT_add_toT (a b : Int) : toT (a + toT b) = toT (a + b) := by
  simp [toT, Int.add_emod]

theorem toT_interior (v a b c : Int) :
    toT (toT (toT (v + toT a) + toT b) - toT c) = toT (v + a + b - c) := by
  simp only [toT, T_MOD]
  omega

theorem toT_corners (d a b c : Int) :
    toT (toT (toT (toT d + toT a) - toT b) - toT c) = toT (d + a - b - c) := by
  simp only [toT, T_MOD]
  omega

theorem toT_of_range (z : Int) (h0 : 0 ≤ z) (h1 : z < T_MOD) : toT z = z := by
  unfold toT
  exact Int.emod_eq_of_lt h0 h1

theorem idx_inj (w x y x' y' : Nat) (hx : x < w) (hx' : x' < w)
    (h : y * w + x = y' * w + x') : x = x' ∧ y = y' := by
  have hw : 0 < w := by omega
  have h1 : (y * w + x) % w = (y' * w + x') % w := by rw [h]
  have h2 : (y * w + x) / w = (y' * w + x') / w := by rw [h]
  rw [Nat.mul_comm y, Nat.mul_comm y', Nat.mul_add_mod, Nat.mul_add_mod,
    Nat.mod_eq_of_lt hx, Nat.mod_eq_of_lt hx'] at h1
  rw [Nat.mul_comm y, Nat.mul_comm y', Nat.mul_add_div hw, Nat.mul_add_div hw,
    Nat.div_eq_of_lt hx, Nat.div_eq_of_lt hx'] at h2
  exact ⟨h1, by simpa using h2⟩

theorem idx_lt (w h x y : Nat) (hx : x < w) (hy : y < h) : y * w + x < w * h := by
  have : (y + 1) * w ≤ h * w := Nat.mul_le_mul_right w hy
  have h2 : (y + 1) * w = y * w + w := by ring
  have h3 : h * w = w * h := Nat.mul_comm _ _
  omega


/-! ## The build -/

theorem cell_set_ne {f : Nat → Int} {w : Nat} {p : Array Int} {x y i : Nat} (hi : i < p.size)
    (v : Int) (hc : Cell f w p x y) (hne : i ≠ y * w + x) :
    Cell f w (p.set ⟨i, hi⟩ v) x y := by
  unfold Cell at *
  rw [Array.get?_set]
  simp only [hne, if_false]
  exact hc

theorem cell_set_eq {f : Nat → Int} {w : Nat} {p : Array Int} {x y i : Nat} (hi : i < p.size)
    (v : Int) (hidx : i = y * w + x) (hv : v = toT (pre f w (x + 1) (y + 1))) :
    Cell f w (p.set ⟨i, hi⟩ v) x y := by
  unfold Cell
  rw [Array.get?_set]
  simp [hidx, hv]

theorem bind_eq_some_of {α β : Type} {a : Option α} {g : α → Option β} {x : α} {y : β}
    (ha : a = some x) (hg : g x = some y) : (a >>= g) = some y := by
  subst ha
  exact hg

theorem topRow_spec (w h : Nat) (hw : 0 < w) (hh : 0 < h) (l : Int → Option Int) (f : Nat → Int)
    (hl : ∀ i : Nat, i < w * h → l (i : Int) = some (f i))
    (p : Array Int) (hp : p.size = w * h) (h0 : Cell f w p 0 0) :
    ∃ q, forFromOne (w : Int) (fun x ptr => do
        let v ← l x
        let a ← readAt ptr (x - 1)
        writeAt ptr x (toT (v + a))) p = some q ∧
      q.size = w * h ∧ ∀ x, x < w → Cell f w q x 0 := by
  obtain ⟨q, hq, hs, hc⟩ := forFromOne_inv (fun x ptr => do
        let v ← l x
        let a ← readAt ptr (x - 1)
        writeAt ptr x (toT (v + a)))
    (fun k q => q.size = w * h ∧ ∀ x, x < k → Cell f w q x 0) w hw p
    ⟨hp, fun x hx => by
      have : x = 0 := by omega
      subst this; exact h0⟩
    (by
      intro k q hk hkw ⟨hs, hc⟩
      obtain ⟨k', rfl⟩ : ∃ k', k = k' + 1 := ⟨k - 1, by omega⟩
      have hkk : k' + 1 < w * h := by
        have := idx_lt w h (k' + 1) 0 hkw hh
        simpa using this
      have hlk := hl (k' + 1) hkk
      have hc' := hc k' (by omega)
      unfold Cell at hc'
      simp only [Nat.zero_mul, Nat.zero_add] at hc'
      have hrd : readAt q (((k' + 1 : Nat) : Int) - 1) = some (toT (pre f w (k' + 1) 1)) := by
        have : (((k' + 1 : Nat) : Int) - 1) = (k' : Int) := by push_cast; ring
        rw [this, readAt_natCast]; exact hc'
      have hwr := writeAt_natCast q (k' + 1) (toT (f (k' + 1) + toT (pre f w (k' + 1) 1)))
        (by omega)
      refine ⟨_, bind_eq_some_of hlk (bind_eq_some_of hrd hwr), ?_, ?_⟩
      · simp [hs]
      · intro x hx
        by_cases hxk : x = k' + 1
        · subst hxk
          apply cell_set_eq
          · simp
          · rw [toT_add_toT, Nat.zero_add, pre_row f w (k' + 1)]
        · exact cell_set_ne _ _ (hc x (by omega)) (by simp; omega))
  exact ⟨q, hq, hs, hc⟩


theorem leftColumn_spec (w h : Nat) (hw : 0 < w) (hh : 0 < h) (l : Int → Option Int) (f : Nat → Int)
    (hl : ∀ i : Nat, i < w * h → l (i : Int) = some (f i))
    (p : Array Int) (hp : p.size = w * h) (hrow : ∀ x, x < w → Cell f w p x 0) :
    ∃ q, forFromOne (h : Int) (fun y ptr => do
        let v ← l (y * (w : Int))
        let a ← readAt ptr ((y - 1) * (w : Int))
        writeAt ptr (y * (w : Int)) (toT (v + a))) p = some q ∧
      q.size = w * h ∧ (∀ x, x < w → Cell f w q x 0) ∧ ∀ y, y < h → Cell f w q 0 y := by
  have hh1 : 1 ≤ h := by omega
  obtain ⟨q, hq, hs, hr, hc⟩ := forFromOne_inv (fun y ptr => do
        let v ← l (y * (w : Int))
        let a ← readAt ptr ((y - 1) * (w : Int))
        writeAt ptr (y * (w : Int)) (toT (v + a)))
    (fun k q => q.size = w * h ∧ (∀ x, x < w → Cell f w q x 0) ∧ ∀ y, y < k → Cell f w q 0 y)
    h hh1 p
    ⟨hp, hrow, fun y hy => by
      have : y = 0 := by omega
      subst this; exact hrow 0 hw⟩
    (by
      intro k q hk hkh ⟨hs, hr, hc⟩
      obtain ⟨k', rfl⟩ : ∃ k', k = k' + 1 := ⟨k - 1, by omega⟩
      have hkk : (k' + 1) * w < w * h := by
        simpa using idx_lt w h 0 (k' + 1) hw hkh
      have hlk : l (((k' + 1 : Nat) : Int) * (w : Int)) = some (f ((k' + 1) * w)) := by
        have := hl ((k' + 1) * w) hkk
        push_cast at this ⊢
        exact this
      have hc' := hc k' (by omega)
      unfold Cell at hc'
      simp only [Nat.add_zero] at hc'
      have hrd : readAt q ((((k' + 1 : Nat) : Int) - 1) * (w : Int))
          = some (toT (pre f w 1 (k' + 1))) := by
        have : ((((k' + 1 : Nat) : Int) - 1) * (w : Int)) = ((k' * w : Nat) : Int) := by
          push_cast; ring
        rw [this, readAt_natCast]; exact hc'
      have hwr : writeAt q (((k' + 1 : Nat) : Int) * (w : Int))
            (toT (f ((k' + 1) * w) + toT (pre f w 1 (k' + 1))))
          = some (q.set ⟨(k' + 1) * w, by omega⟩
              (toT (f ((k' + 1) * w) + toT (pre f w 1 (k' + 1))))) := by
        have := writeAt_natCast q ((k' + 1) * w)
          (toT (f ((k' + 1) * w) + toT (pre f w 1 (k' + 1)))) (by omega)
        push_cast at this ⊢
        exact this
      refine ⟨_, bind_eq_some_of hlk (bind_eq_some_of hrd hwr), ?_, ?_, ?_⟩
      · simp [hs]
      · intro x hx
        refine cell_set_ne _ _ (hr x hx) ?_
        intro heq
        have := idx_inj w 0 (k' + 1) x 0 hw hx (by simpa using heq)
        omega
      · intro y hy
        by_cases hyk : y = k' + 1
        · subst hyk
          apply cell_set_eq
          · simp
          · rw [toT_add_toT, Nat.zero_add, pre_col f w (k' + 1)]
        · refine cell_set_ne _ _ (hc y (by omega)) ?_
          intro heq
          have := idx_inj w 0 (k' + 1) 0 y hw hw (by simpa using heq)
          omega)
  exact ⟨q, hq, hs, hr, hc⟩


theorem interiorRow_spec (w h : Nat) (l : Int → Option Int) (f : Nat → Int)
    (hl : ∀ i : Nat, i < w * h → l (i : Int) = some (f i))
    (y' : Nat) (hy : y' + 1 < h) (hw : 0 < w)
    (p : Array Int) (hp : p.size = w * h) (hcol : ∀ y, y < h → Cell f w p 0 y)
    (hdone : ∀ y, y < y' + 1 → ∀ x, x < w → Cell f w p x y) :
    ∃ q, forFromOne (w : Int) (fun x ptr => do
        let v ← l (((y' + 1 : Nat) : Int) * (w : Int) + x)
        let a ← readAt ptr ((((y' + 1 : Nat) : Int) - 1) * (w : Int) + x)
        let b ← readAt ptr (((y' + 1 : Nat) : Int) * (w : Int) + x - 1)
        let c ← readAt ptr ((((y' + 1 : Nat) : Int) - 1) * (w : Int) + x - 1)
        writeAt ptr (((y' + 1 : Nat) : Int) * (w : Int) + x)
          (toT (toT (toT (v + a) + b) - c))) p = some q ∧
      q.size = w * h ∧ (∀ y, y < h → Cell f w q 0 y) ∧
      ∀ y, y < y' + 1 + 1 → ∀ x, x < w → Cell f w q x y := by
  obtain ⟨q, hq, hs, hc, hd, hr⟩ := forFromOne_inv (fun x ptr => do
        let v ← l (((y' + 1 : Nat) : Int) * (w : Int) + x)
        let a ← readAt ptr ((((y' + 1 : Nat) : Int) - 1) * (w : Int) + x)
        let b ← readAt ptr (((y' + 1 : Nat) : Int) * (w : Int) + x - 1)
        let c ← readAt ptr ((((y' + 1 : Nat) : Int) - 1) * (w : Int) + x - 1)
        writeAt ptr (((y' + 1 : Nat) : Int) * (w : Int) + x)
          (toT (toT (toT (v + a) + b) - c)))
    (fun k q => q.size = w * h ∧ (∀ y, y < h → Cell f w q 0 y) ∧
      (∀ y, y < y' + 1 → ∀ x, x < w → Cell f w q x y) ∧ ∀ x, x < k → Cell f w q x (y' + 1))
    w hw p
    ⟨hp, hcol, hdone, fun x hx => by
      have : x = 0 := by omega
      subst this; exact hcol (y' + 1) hy⟩
    (by
      intro k q hk hkw ⟨hs, hc, hd, hr⟩
      obtain ⟨k', rfl⟩ : ∃ k', k = k' + 1 := ⟨k - 1, by omega⟩
      have hii : (y' + 1) * w + (k' + 1) < w * h := idx_lt w h (k' + 1) (y' + 1) hkw hy
      have hlk : l (((y' + 1 : Nat) : Int) * (w : Int) + ((k' + 1 : Nat) : Int))
          = some (f ((y' + 1) * w + (k' + 1))) := by
        have := hl ((y' + 1) * w + (k' + 1)) hii
        push_cast at this ⊢
        exact this
      have ha : readAt q ((((y' + 1 : Nat) : Int) - 1) * (w : Int) + ((k' + 1 : Nat) : Int))
          = some (toT (pre f w (k' + 1 + 1) (y' + 1))) := by
        have : ((((y' + 1 : Nat) : Int) - 1) * (w : Int) + ((k' + 1 : Nat) : Int))
            = ((y' * w + (k' + 1) : Nat) : Int) := by push_cast; ring
        rw [this, readAt_natCast]; exact hd y' (by omega) (k' + 1) hkw
      have hb : readAt q (((y' + 1 : Nat) : Int) * (w : Int) + ((k' + 1 : Nat) : Int) - 1)
          = some (toT (pre f w (k' + 1) (y' + 1 + 1))) := by
        have : (((y' + 1 : Nat) : Int) * (w : Int) + ((k' + 1 : Nat) : Int) - 1)
            = (((y' + 1) * w + k' : Nat) : Int) := by push_cast; ring
        rw [this, readAt_natCast]; exact hr k' (by omega)
      have hcc : readAt q ((((y' + 1 : Nat) : Int) - 1) * (w : Int) + ((k' + 1 : Nat) : Int) - 1)
          = some (toT (pre f w (k' + 1) (y' + 1))) := by
        have : ((((y' + 1 : Nat) : Int) - 1) * (w : Int) + ((k' + 1 : Nat) : Int) - 1)
            = ((y' * w + k' : Nat) : Int) := by push_cast; ring
        rw [this, readAt_natCast]; exact hd y' (by omega) k' (by omega)
      have hwr : writeAt q (((y' + 1 : Nat) : Int) * (w : Int) + ((k' + 1 : Nat) : Int))
            (toT (toT (toT (f ((y' + 1) * w + (k' + 1)) + toT (pre f w (k' + 1 + 1) (y' + 1)))
              + toT (pre f w (k' + 1) (y' + 1 + 1))) - toT (pre f w (k' + 1) (y' + 1))))
          = some (q.set ⟨(y' + 1) * w + (k' + 1), by omega⟩
            (toT (toT (toT (f ((y' + 1) * w + (k' + 1)) + toT (pre f w (k' + 1 + 1) (y' + 1)))
              + toT (pre f w (k' + 1) (y' + 1 + 1))) - toT (pre f w (k' + 1) (y' + 1))))) := by
        have := writeAt_natCast q ((y' + 1) * w + (k' + 1))
          (toT (toT (toT (f ((y' + 1) * w + (k' + 1)) + toT (pre f w (k' + 1 + 1) (y' + 1)))
              + toT (pre f w (k' + 1) (y' + 1 + 1))) - toT (pre f w (k' + 1) (y' + 1))))
          (by omega)
        push_cast at this ⊢
        exact this
      refine ⟨_, bind_eq_some_of hlk (bind_eq_some_of ha (bind_eq_some_of hb
        (bind_eq_some_of hcc hwr))), ?_, ?_, ?_, ?_⟩
      · simp [hs]
      · intro y hyh
        refine cell_set_ne _ _ (hc y hyh) ?_
        intro heq
        have := idx_inj w (k' + 1) (y' + 1) 0 y hkw hw heq
        omega
      · intro y hyy x hx
        refine cell_set_ne _ _ (hd y hyy x hx) ?_
        intro heq
        have := idx_inj w (k' + 1) (y' + 1) x y hkw hx heq
        omega
      · intro x hx
        by_cases hxk : x = k' + 1
        · subst hxk
          apply cell_set_eq
          · rfl
          · rw [toT_interior, pre_succ_succ f w (k' + 1) (y' + 1)]
        · refine cell_set_ne _ _ (hr x (by omega)) ?_
          intro heq
          have := idx_inj w (k' + 1) (y' + 1) x (y' + 1) hkw (by omega) heq
          omega)
  refine ⟨q, hq, hs, hc, ?_⟩
  intro y hyy x hx
  by_cases hyk : y = y' + 1
  · subst hyk; exact hr x hx
  · exact hd y (by omega) x hx

theorem interior_spec (w h : Nat) (hw : 0 < w) (hh : 0 < h) (l : Int → Option Int)
    (f : Nat → Int) (hl : ∀ i : Nat, i < w * h → l (i : Int) = some (f i))
    (p : Array Int) (hp : p.size = w * h) (hrow : ∀ x, x < w → Cell f w p x 0)
    (hcol : ∀ y, y < h → Cell f w p 0 y) :
    ∃ q, forFromOne (h : Int) (fun y ptr =>
      forFromOne (w : Int) (fun x ptr => do
        let v ← l (y * (w : Int) + x)
        let a ← readAt ptr ((y - 1) * (w : Int) + x)
        let b ← readAt ptr (y * (w : Int) + x - 1)
        let c ← readAt ptr ((y - 1) * (w : Int) + x - 1)
        writeAt ptr (y * (w : Int) + x) (toT (toT (toT (v + a) + b) - c))) ptr) p = some q ∧
      q.size = w * h ∧ ∀ y, y < h → ∀ x, x < w → Cell f w q x y := by
  obtain ⟨q, hq, hs, _, hd⟩ := forFromOne_inv (fun y ptr =>
      forFromOne (w : Int) (fun x ptr => do
        let v ← l (y * (w : Int) + x)
        let a ← readAt ptr ((y - 1) * (w : Int) + x)
        let b ← readAt ptr (y * (w : Int) + x - 1)
        let c ← readAt ptr ((y - 1) * (w : Int) + x - 1)
        writeAt ptr (y * (w : Int) + x) (toT (toT (toT (v + a) + b) - c))) ptr)
    (fun k q => q.size = w * h ∧ (∀ y, y < h → Cell f w q 0 y) ∧
      ∀ y, y < k → ∀ x, x < w → Cell f w q x y)
    h hh p
    ⟨hp, hcol, fun y hy x hx => by
      have : y = 0 := by omega
      subst this; exact hrow x hx⟩
    (by
      intro k q hk hkh ⟨hs, hc, hd⟩
      obtain ⟨k', rfl⟩ : ∃ k', k = k' + 1 := ⟨k - 1, by omega⟩
      exact interiorRow_spec w h l f hl k' hkh hw q hs hc hd)
  exact ⟨q, hq, hs, hd⟩

theorem initializeSAT_spec (w h : Nat) (hw : 0 < w) (hh : 0 < h) (l : Int → Option Int)
    (f : Nat → Int) (hl : ∀ i : Nat, i < w * h → l (i : Int) = some (f i))
    (p : Array Int) (hp : p.size = w * h) :
    ∃ q, initializeSAT (w : Int) (h : Int) p l = some q ∧
      q.size = w * h ∧ ∀ x y, x < w → y < h → Cell f w q x y := by
  have hwh : 0 < w * h := Nat.mul_pos hw hh
  have hl0 : l 0 = some (f 0) := by simpa using hl 0 hwh
  have hw0 : writeAt p 0 (toT (f 0)) = some (p.set ⟨0, by omega⟩ (toT (f 0))) := by
    simpa using writeAt_natCast p 0 (toT (f 0)) (by omega)
  have hc0 : Cell f w (p.set ⟨0, by omega⟩ (toT (f 0))) 0 0 := by
    apply cell_set_eq
    · simp
    · simp [pre]
  obtain ⟨p1, hr1, hs1, hrow1⟩ := topRow_spec w h hw hh l f hl _ (by simpa using hp) hc0
  obtain ⟨p2, hr2, hs2, hrow2, hcol2⟩ := leftColumn_spec w h hw hh l f hl p1 hs1 hrow1
  obtain ⟨p3, hr3, hs3, hall⟩ := interior_spec w h hw hh l f hl p2 hs2 hrow2 hcol2
  refine ⟨p3, ?_, hs3, fun x y hx hy => hall y hy x hx⟩
  exact bind_eq_some_of hl0 (bind_eq_some_of hw0 (bind_eq_some_of hr1
    (bind_eq_some_of hr2 hr3)))


/-! ## The constructor -/

theorem sampleAt_natCast (buffer : Array Int) (i : Nat) (hi : i < buffer.size) :
    sampleAt buffer (i : Int) = some (input buffer i) := by
  simp [sampleAt, readAt_natCast, input, Array.getD, hi, Array.getElem?_eq_getElem]

theorem nonZeroAt_natCast (buffer : Array Int) (i : Nat) (hi : i < buffer.size) :
    nonZeroAt buffer (i : Int) = some (indicator buffer i) := by
  simp [nonZeroAt, readAt_natCast, indicator, input, Array.getD, hi,
    Array.getElem?_eq_getElem]

theorem ctor_spec (b : Bool) (buffer : Array Int) (w h : Nat) (hw : 0 < w) (hh : 0 < h)
    (hfit : (w : Int) * (h : Int) ≤ INT_MAX) (hbuf : buffer.size = w * h) :
    ∃ t : Table b, ctor b buffer (w : Int) (h : Int) = Outcome.ok t ∧ Built b buffer w h t := by
  have hpos : (0 : Int) ≤ (w : Int) * (h : Int) := by positivity
  have hn1 : ¬ ((w : Int) * (h : Int) < INT_MIN ∨ INT_MAX < (w : Int) * (h : Int)) := by
    unfold INT_MIN
    omega
  have hn2 : ¬ ((w : Int) * (h : Int) < 0) := by omega
  have hw0 : ¬ ((w : Int) = 0) := by omega
  have hh0 : ¬ ((h : Int) = 0) := by omega
  have hsz : ((w : Int) * (h : Int)).toNat = w * h := by
    have : (w : Int) * (h : Int) = ((w * h : Nat) : Int) := by push_cast; rfl
    rw [this]; exact Int.toNat_natCast _
  obtain ⟨p, hp, hps, hpc⟩ := initializeSAT_spec w h hw hh (sampleAt buffer) (input buffer)
    (fun i hi => sampleAt_natCast buffer i (by omega))
    (mkArray (w * h) (0 : Int)) (by simp)
  cases b with
  | false =>
    refine ⟨⟨w, h, p, mkArray 0 0⟩, ?_, ⟨rfl, rfl, hps, hpc, by simp, by simp⟩⟩
    simp only [ctor, hn1, hn2, hw0, hh0, if_false, hsz, hp]
    rfl
  | true =>
    obtain ⟨q, hq, hqs, hqc⟩ := initializeSAT_spec w h hw hh (nonZeroAt buffer)
      (indicator buffer) (fun i hi => nonZeroAt_natCast buffer i (by omega))
      (mkArray (w * h) (0 : Int)) (by simp)
    refine ⟨⟨w, h, p, q⟩, ?_, ⟨rfl, rfl, hps, hpc, fun _ => hqs, fun _ => hqc⟩⟩
    simp only [ctor, hn1, hn2, hw0, hh0, if_false, hsz, hp, if_true, hq]

/-! ## The query body -/

theorem toT_zero : toT 0 = 0 := by decide

theorem corner_read (f : Nat → Int) (w h : Nat) (p : Array Int)
    (hcells : ∀ x y, x < w → y < h → Cell f w p x y) (a b : Nat) (ha : a ≤ w) (hb : b ≤ h)
    (i : Int) (hi : 0 < a → 0 < b → i = (((b - 1) * w + (a - 1) : Nat) : Int)) :
    (if 0 < a ∧ 0 < b then readAt p i else some 0) = some (toT (pre f w a b)) := by
  by_cases hab : 0 < a ∧ 0 < b
  · obtain ⟨a', rfl⟩ : ∃ a', a = a' + 1 := ⟨a - 1, by omega⟩
    obtain ⟨b', rfl⟩ : ∃ b', b = b' + 1 := ⟨b - 1, by omega⟩
    rw [if_pos hab, hi hab.1 hab.2, readAt_natCast]
    exact hcells a' b' (by omega) (by omega)
  · rw [if_neg hab]
    have : a = 0 ∨ b = 0 := by omega
    rcases this with h0 | h0
    · subst h0; rw [pre_zero_left, toT_zero]
    · subst h0; rw [pre_zero_right, toT_zero]

theorem cornerSum_spec (f : Nat → Int) (w h : Nat) (p : Array Int)
    (hcells : ∀ x y, x < w → y < h → Cell f w p x y) (x0 y0 x1 y1 : Nat)
    (hx : x0 ≤ x1) (hx1 : x1 < w) (hy : y0 ≤ y1) (hy1 : y1 < h) :
    cornerSum p (w : Int) (x0 : Int) (y0 : Int) (x1 : Int) (y1 : Int)
      = some (toT (rectSum f w x0 y0 x1 y1)) := by
  have hA := corner_read f w h p hcells x0 y0 (by omega) (by omega)
    (((y0 : Int) - 1) * (w : Int) + (x0 : Int) - 1) (by
      intro h1 h2
      obtain ⟨a', rfl⟩ : ∃ a', x0 = a' + 1 := ⟨x0 - 1, by omega⟩
      obtain ⟨b', rfl⟩ : ∃ b', y0 = b' + 1 := ⟨y0 - 1, by omega⟩
      simp only [Nat.add_sub_cancel]; push_cast; ring)
  have hB := corner_read f w h p hcells (x1 + 1) y0 (by omega) (by omega)
    (((y0 : Int) - 1) * (w : Int) + (x1 : Int)) (by
      intro h1 h2
      obtain ⟨b', rfl⟩ : ∃ b', y0 = b' + 1 := ⟨y0 - 1, by omega⟩
      simp only [Nat.add_sub_cancel]; push_cast; ring)
  have hC := corner_read f w h p hcells x0 (y1 + 1) (by omega) (by omega)
    ((y1 : Int) * (w : Int) + (x0 : Int) - 1) (by
      intro h1 h2
      obtain ⟨a', rfl⟩ : ∃ a', x0 = a' + 1 := ⟨x0 - 1, by omega⟩
      simp only [Nat.add_sub_cancel]; push_cast; ring)
  have hD : readAt p ((y1 : Int) * (w : Int) + (x1 : Int))
      = some (toT (pre f w (x1 + 1) (y1 + 1))) := by
    have : ((y1 : Int) * (w : Int) + (x1 : Int)) = ((y1 * w + x1 : Nat) : Int) := by
      push_cast; rfl
    rw [this, readAt_natCast]
    exact hcells x1 y1 hx1 hy1
  have hA' : (if (x0 : Int) > 0 ∧ (y0 : Int) > 0
      then readAt p (((y0 : Int) - 1) * (w : Int) + (x0 : Int) - 1) else some 0)
      = some (toT (pre f w x0 y0)) := by
    simpa using hA
  have hB' : (if (y0 : Int) > 0 then readAt p (((y0 : Int) - 1) * (w : Int) + (x1 : Int))
      else some 0) = some (toT (pre f w (x1 + 1) y0)) := by
    simpa using hB
  have hC' : (if (x0 : Int) > 0 then readAt p ((y1 : Int) * (w : Int) + (x0 : Int) - 1)
      else some 0) = some (toT (pre f w x0 (y1 + 1))) := by
    simpa using hC
  have hres : toT (toT (toT (toT (pre f w (x1 + 1) (y1 + 1)) + toT (pre f w x0 y0))
      - toT (pre f w (x1 + 1) y0)) - toT (pre f w x0 (y1 + 1)))
      = toT (rectSum f w x0 y0 x1 y1) := by
    rw [toT_corners, rectSum_eq_pre f w x0 y0 x1 y1 hx hy]
  simp only [cornerSum, hA', hB', hC', hD, Option.some_bind, hres]


/-! ## The clamping macro -/

theorem clamp_one (n : Nat) (hn : 0 < n) (v : Int) :
    (if (if v < 0 then 0 else v) ≥ (n : Int) then (n : Int) - 1 else (if v < 0 then 0 else v))
      = ((clampCoord n v : Nat) : Int) := by
  unfold clampCoord
  split_ifs <;> omega

theorem swap_one (a b : Nat) :
    (if (a : Int) > (b : Int) then ((b : Int), (a : Int)) else ((a : Int), (b : Int)))
      = (((min a b : Nat) : Int), ((max a b : Nat) : Int)) := by
  split_ifs with h
  · have h1 : min a b = b := by omega
    have h2 : max a b = a := by omega
    rw [h1, h2]
  · have h1 : min a b = a := by omega
    have h2 : max a b = b := by omega
    rw [h1, h2]

theorem clampCoord_lt (n : Nat) (hn : 0 < n) (v : Int) : clampCoord n v < n := by
  unfold clampCoord
  omega

theorem clampCoord_natCast (n v : Nat) (hv : v < n) : clampCoord n (v : Int) = v := by
  unfold clampCoord
  omega

theorem clamp_spec (w h : Nat) (hw : 0 < w) (hh : 0 < h) (x0 y0 x1 y1 : Int) :
    CLAMP_SUMMED_AREA_TABLE_ARGS false (w : Int) (h : Int) x0 y0 x1 y1 =
      (((min (clampCoord w x0) (clampCoord w x1) : Nat) : Int),
       ((min (clampCoord h y0) (clampCoord h y1) : Nat) : Int),
       ((max (clampCoord w x0) (clampCoord w x1) : Nat) : Int),
       ((max (clampCoord h y0) (clampCoord h y1) : Nat) : Int)) := by
  simp only [CLAMP_SUMMED_AREA_TABLE_ARGS, Bool.false_eq_true, if_false,
    clamp_one w hw, clamp_one h hh, swap_one]

theorem clamp_valid (noClamping : Bool) (w h x0 y0 x1 y1 : Nat) (hx : x0 ≤ x1) (hx1 : x1 < w)
    (hy : y0 ≤ y1) (hy1 : y1 < h) :
    CLAMP_SUMMED_AREA_TABLE_ARGS noClamping (w : Int) (h : Int) (x0 : Int) (y0 : Int)
      (x1 : Int) (y1 : Int) = ((x0 : Int), (y0 : Int), (x1 : Int), (y1 : Int)) := by
  cases noClamping with
  | true => simp [CLAMP_SUMMED_AREA_TABLE_ARGS]
  | false =>
    rw [clamp_spec w h (by omega) (by omega), clampCoord_natCast w x0 (by omega),
      clampCoord_natCast w x1 hx1, clampCoord_natCast h y0 (by omega),
      clampCoord_natCast h y1 hy1, Nat.min_eq_left hx, Nat.min_eq_left hy,
      Nat.max_eq_right hx, Nat.max_eq_right hy]

/-! ## Counting positive samples -/

theorem rectSum_indicator (buffer : Array Int) (w x0 y0 x1 y1 : Nat) :
    rectSum (indicator buffer) w x0 y0 x1 y1 = ((bruteCount buffer w x0 y0 x1 y1 : Nat) : Int) := by
  unfold rectSum bruteCount indicator
  rw [Finset.card_filter, Finset.sum_product]
  push_cast
  rfl

theorem bruteCount_le (buffer : Array Int) (w h x0 y0 x1 y1 : Nat) (hx1 : x1 < w)
    (hy1 : y1 < h) : bruteCount buffer w x0 y0 x1 y1 ≤ w * h := by
  unfold bruteCount
  refine le_trans (Finset.card_filter_le _ _) ?_
  rw [Finset.card_product, Nat.card_Icc, Nat.card_Icc, Nat.mul_comm w h]
  exact Nat.mul_le_mul (by omega) (by omega)

theorem toT_count (buffer : Array Int) (w h x0 y0 x1 y1 : Nat) (hx1 : x1 < w) (hy1 : y1 < h)
    (hfit : (w : Int) * (h : Int) ≤ INT_MAX) :
    toT (rectSum (indicator buffer) w x0 y0 x1 y1)
      = ((bruteCount buffer w x0 y0 x1 y1 : Nat) : Int) := by
  rw [rectSum_indicator]
  apply toT_of_range
  · exact Int.natCast_nonneg _
  · have h1 := bruteCount_le buffer w h x0 y0 x1 y1 hx1 hy1
    have h2 : ((bruteCount buffer w x0 y0 x1 y1 : Nat) : Int) ≤ ((w * h : Nat) : Int) := by
      exact_mod_cast h1
    push_cast at h2
    unfold INT_MAX at hfit
    unfold T_MOD
    omega

/-! ## Shapes of the brute-force sum -/

theorem rectSum_single (f : Nat → Int) (w x y : Nat) : rectSum f w x y x y = f (y * w + x) := by
  simp [rectSum]

theorem rectSum_origin (f : Nat → Int) (w x y : Nat) :
    rectSum f w 0 0 x y = pre f w (x + 1) (y + 1) := by
  rw [rectSum_eq_pre f w 0 0 x y (Nat.zero_le _) (Nat.zero_le _)]
  simp [pre_zero_left, pre_zero_right]

theorem pre_full (f : Nat → Int) (w h : Nat) :
    pre f w w h = ∑ k in Finset.range (w * h), f k := by
  induction h with
  | zero => simp [pre]
  | succ n ih =>
    rw [pre_succ_right, ih, Nat.mul_succ, Finset.sum_range_add, Nat.mul_comm n w]


/-! ## The queries on a built table -/

theorem getSum_valid {b : Bool} (noClamping : Bool) (buffer : Array Int) (w h : Nat)
    (t : Table b) (ht : Built b buffer w h t) (x0 y0 x1 y1 : Nat)
    (hx : x0 ≤ x1) (hx1 : x1 < w) (hy : y0 ≤ y1) (hy1 : y1 < h) :
    getSum noClamping t (x0 : Int) (y0 : Int) (x1 : Int) (y1 : Int)
      = some (toT (bruteSum buffer w x0 y0 x1 y1)) := by
  unfold getSum
  rw [ht.width_eq, ht.height_eq, clamp_valid noClamping w h x0 y0 x1 y1 hx hx1 hy hy1]
  exact cornerSum_spec (input buffer) w h t.sat_ ht.sat_cell x0 y0 x1 y1 hx hx1 hy hy1

theorem getSum_clamped {b : Bool} (buffer : Array Int) (w h : Nat) (hw : 0 < w) (hh : 0 < h)
    (t : Table b) (ht : Built b buffer w h t) (x0 y0 x1 y1 : Int) :
    getSum false t x0 y0 x1 y1
      = some (toT (bruteSum buffer w
          (min (clampCoord w x0) (clampCoord w x1)) (min (clampCoord h y0) (clampCoord h y1))
          (max (clampCoord w x0) (clampCoord w x1)) (max (clampCoord h y0) (clampCoord h y1)))) := by
  have hx0 := clampCoord_lt w hw x0
  have hx1 := clampCoord_lt w hw x1
  have hy0 := clampCoord_lt h hh y0
  have hy1 := clampCoord_lt h hh y1
  unfold getSum
  rw [ht.width_eq, ht.height_eq, clamp_spec w h hw hh]
  exact cornerSum_spec (input buffer) w h t.sat_ ht.sat_cell _ _ _ _
    (by omega) (by omega) (by omega) (by omega)

theorem getNonZeroCount_valid (noClamping : Bool) (buffer : Array Int) (w h : Nat)
    (hfit : (w : Int) * (h : Int) ≤ INT_MAX)
    (t : Table true) (ht : Built true buffer w h t) (x0 y0 x1 y1 : Nat)
    (hx : x0 ≤ x1) (hx1 : x1 < w) (hy : y0 ≤ y1) (hy1 : y1 < h) :
    getNonZeroCount noClamping t (x0 : Int) (y0 : Int) (x1 : Int) (y1 : Int)
      = some ((bruteCount buffer w x0 y0 x1 y1 : Nat) : Int) := by
  unfold getNonZeroCount
  rw [ht.width_eq, ht.height_eq, clamp_valid noClamping w h x0 y0 x1 y1 hx hx1 hy hy1,
    cornerSum_spec (indicator buffer) w h t.satNZ_ (ht.satNZ_cell rfl) x0 y0 x1 y1 hx hx1 hy hy1,
    toT_count buffer w h x0 y0 x1 y1 hx1 hy1 hfit]

theorem getNonZeroCount_clamped (buffer : Array Int) (w h : Nat) (hw : 0 < w) (hh : 0 < h)
    (hfit : (w : Int) * (h : Int) ≤ INT_MAX)
    (t : Table true) (ht : Built true buffer w h t) (x0 y0 x1 y1 : Int) :
    getNonZeroCount false t x0 y0 x1 y1
      = some ((bruteCount buffer w
          (min (clampCoord w x0) (clampCoord w x1)) (min (clampCoord h y0) (clampCoord h y1))
          (max (clampCoord w x0) (clampCoord w x1)) (max (clampCoord h y0) (clampCoord h y1))
          : Nat) : Int) := by
  have hx0 := clampCoord_lt w hw x0
  have hx1 := clampCoord_lt w hw x1
  have hy0 := clampCoord_lt h hh y0
  have hy1 := clampCoord_lt h hh y1
  unfold getNonZeroCount
  rw [ht.width_eq, ht.height_eq, clamp_spec w h hw hh,
    cornerSum_spec (indicator buffer) w h t.satNZ_ (ht.satNZ_cell rfl) _ _ _ _
      (by omega) (by omega) (by omega) (by omega),
    toT_count buffer w h _ _ _ _ (by omega) (by omega) hfit]

theorem plane_cell {f : Nat → Int} {w : Nat} {p : Array Int} {x y : Nat}
    (hc : Cell f w p x y) : p[y * w + x]? = some (toT (rectSum f w 0 0 x y)) := by
  rw [rectSum_origin]
  exact hc

/-! ## The claims -/

/-- C1. Prefix identity of the sum plane: for every width and height of at least 1 (their
product an `int`) and every buffer of `width*height` samples, the constructor returns a
table, and every cell `(x, y)` of the grid whose brute-force prefix sum is representable
in the accumulator holds exactly that sum, the double sum of `input[j*width+i]` over
`0 <= i <= x`, `0 <= j <= y`. -/
theorem sumPlane_prefix_identity (b : Bool) (buffer : Array Int) (width height : Nat)
    (hw : 1 ≤ width) (hh : 1 ≤ height) (hfit : (width : Int) * (height : Int) ≤ INT_MAX)
    (hbuf : buffer.size = width * height) :
    ∃ t : Table b, ctor b buffer (width : Int) (height : Int) = Outcome.ok t ∧
      ∀ x y, x < width → y < height →
        0 ≤ bruteSum buffer width 0 0 x y → bruteSum buffer width 0 0 x y < T_MOD →
        (getSAT t)[y * width + x]? = some (bruteSum buffer width 0 0 x y) := by
  obtain ⟨t, hc, ht⟩ := ctor_spec b buffer width height hw hh hfit hbuf
  refine ⟨t, hc, ?_⟩
  intro x y hx hy h0 h1
  have hcell : t.sat_[y * width + x]? = some (toT (bruteSum buffer width 0 0 x y)) :=
    plane_cell (ht.sat_cell x y hx hy)
  rw [toT_of_range _ h0 h1] at hcell
  exact hcell

/-- Witness of C1 on the grid of `test2`: the cell `(3, 2)` of the sum plane is 9. -/
theorem sumPlane_prefix_identity_witness :
    ∃ t : Table true, ctor true test2Pixels 6 4 = Outcome.ok t ∧
      (getSAT t)[2 * 6 + 3]? = some 9 := by
  obtain ⟨t, hc, hcell⟩ := sumPlane_prefix_identity true test2Pixels 6 4
    (by decide) (by decide) (by decide) (by decide)
  exact ⟨t, hc, hcell 3 2 (by decide) (by decide) (by decide) (by decide)⟩

/-- C2. Prefix identity of the non-zero plane: for every width and height of at least 1
(their product an `int`) and every buffer of `width*height` samples, the constructor
returns a table whose non-zero plane holds, at every cell `(x, y)` of the grid, the number
of positions `(i, j)` with `i <= x`, `j <= y` and `input[j*width+i] > 0`. -/
theorem nonZeroPlane_prefix_identity (buffer : Array Int) (width height : Nat)
    (hw : 1 ≤ width) (hh : 1 ≤ height) (hfit : (width : Int) * (height : Int) ≤ INT_MAX)
    (hbuf : buffer.size = width * height) :
    ∃ t : Table true, ctor true buffer (width : Int) (height : Int) = Outcome.ok t ∧
      ∀ x y, x < width → y < height →
        (getSATNonZero t)[y * width + x]?
          = some ((bruteCount buffer width 0 0 x y : Nat) : Int) := by
  obtain ⟨t, hc, ht⟩ := ctor_spec true buffer width height hw hh hfit hbuf
  refine ⟨t, hc, ?_⟩
  intro x y hx hy
  have := plane_cell (ht.satNZ_cell rfl x y hx hy)
  rw [toT_count buffer width height 0 0 x y hx hy hfit] at this
  exact this

/-- Witness of C2 on the grid of `test2`: the cell `(3, 2)` of the non-zero plane is 4. -/
theorem nonZeroPlane_prefix_identity_witness :
    ∃ t : Table true, ctor true test2Pixels 6 4 = Outcome.ok t ∧
      (getSATNonZero t)[2 * 6 + 3]? = some 4 := by
  obtain ⟨t, hc, hcell⟩ := nonZeroPlane_prefix_identity test2Pixels 6 4
    (by decide) (by decide) (by decide) (by decide)
  exact ⟨t, hc, hcell 3 2 (by decide) (by decide)⟩

/-- C3. Inclusion-exclusion correctness of `getSum`: on the table built from a
`width x height` input, for every valid rectangle `x0 <= x1 < width`, `y0 <= y1 < height`
whose brute-force sum is representable in the accumulator, `getSum(x0,y0,x1,y1)` returns
that sum, the sum of `input[j*width+i]` over `x0 <= i <= x1`, `y0 <= j <= y1`, with and
without the clamping macro. -/
theorem getSum_inclusion_exclusion (b noClamping : Bool) (buffer : Array Int)
    (width height : Nat) (hw : 1 ≤ width) (hh : 1 ≤ height)
    (hfit : (width : Int) * (height : Int) ≤ INT_MAX) (hbuf : buffer.size = width * height) :
    ∃ t : Table b, ctor b buffer (width : Int) (height : Int) = Outcome.ok t ∧
      ∀ x0 y0 x1 y1 : Nat, x0 ≤ x1 → x1 < width → y0 ≤ y1 → y1 < height →
        0 ≤ bruteSum buffer width x0 y0 x1 y1 → bruteSum buffer width x0 y0 x1 y1 < T_MOD →
        getSum noClamping t (x0 : Int) (y0 : Int) (x1 : Int) (y1 : Int)
          = some (bruteSum buffer width x0 y0 x1 y1) := by
  obtain ⟨t, hc, ht⟩ := ctor_spec b buffer width height hw hh hfit hbuf
  refine ⟨t, hc, ?_⟩
  intro x0 y0 x1 y1 hx hx1 hy hy1 h0 h1
  rw [getSum_valid noClamping buffer width height t ht x0 y0 x1 y1 hx hx1 hy hy1,
    toT_of_range _ h0 h1]

/-- Witness of C3 on the grid of `test2`: `getSum(2,1,4,2) == 11`. -/
theorem getSum_inclusion_exclusion_witness :
    ∃ t : Table true, ctor true test2Pixels 6 4 = Outcome.ok t ∧
      getSum false t 2 1 4 2 = some 11 := by
  obtain ⟨t, hc, hsum⟩ := getSum_inclusion_exclusion true false test2Pixels 6 4
    (by decide) (by decide) (by decide) (by decide)
  exact ⟨t, hc, hsum 2 1 4 2 (by decide) (by decide) (by decide) (by decide)
    (by decide) (by decide)⟩

/-- C4. Correctness of `getNonZeroCount`: on the table built with the non-zero plane, for
every valid rectangle `x0 <= x1 < width`, `y0 <= y1 < height`, `getNonZeroCount(x0,y0,x1,y1)`
returns the number of cells of the inclusive rectangle whose input sample is positive,
with and without the clamping macro. -/
theorem getNonZeroCount_correct (noClamping : Bool) (buffer : Array Int)
    (width height : Nat) (hw : 1 ≤ width) (hh : 1 ≤ height)
    (hfit : (width : Int) * (height : Int) ≤ INT_MAX) (hbuf : buffer.size = width * height) :
    ∃ t : Table true, ctor true buffer (width : Int) (height : Int) = Outcome.ok t ∧
      ∀ x0 y0 x1 y1 : Nat, x0 ≤ x1 → x1 < width → y0 ≤ y1 → y1 < height →
        getNonZeroCount noClamping t (x0 : Int) (y0 : Int) (x1 : Int) (y1 : Int)
          = some ((bruteCount buffer width x0 y0 x1 y1 : Nat) : Int) := by
  obtain ⟨t, hc, ht⟩ := ctor_spec true buffer width height hw hh hfit hbuf
  exact ⟨t, hc, fun x0 y0 x1 y1 hx hx1 hy hy1 =>
    getNonZeroCount_valid noClamping buffer width height hfit t ht x0 y0 x1 y1 hx hx1 hy hy1⟩

/-- Witness of C4 on the grid of `test2`: `getNonZeroCount(2,1,4,2) == 5`. -/
theorem getNonZeroCount_correct_witness :
    ∃ t : Table true, ctor true test2Pixels 6 4 = Outcome.ok t ∧
      getNonZeroCount false t 2 1 4 2 = some 5 := by
  obtain ⟨t, hc, hcount⟩ := getNonZeroCount_correct false test2Pixels 6 4
    (by decide) (by decide) (by decide) (by decide)
  exact ⟨t, hc, hcount 2 1 4 2 (by decide) (by decide) (by decide) (by decide)⟩


/-! ## Shared facts for the clamped queries and the averages -/

theorem idx_range (w h x y : Nat) (hx : x < w) (hy : y < h) :
    0 ≤ (y : Int) * (w : Int) + (x : Int) ∧
      (y : Int) * (w : Int) + (x : Int) < (w : Int) * (h : Int) := by
  have h1 := idx_lt w h x y hx hy
  have h2 : ((y * w + x : Nat) : Int) < ((w * h : Nat) : Int) := by exact_mod_cast h1
  push_cast at h2
  exact ⟨by positivity, h2⟩

theorem numPixels_pos (x0 y0 x1 y1 : Int) : 1 ≤ (|x1 - x0| + 1) * (|y1 - y0| + 1) := by
  have h1 : 0 ≤ |x1 - x0| := abs_nonneg _
  have h2 : 0 ≤ |y1 - y0| := abs_nonneg _
  nlinarith

theorem toInt32_of_range (z : Int) (h0 : INT_MIN ≤ z) (h1 : z ≤ INT_MAX) : toInt32 z = z := by
  unfold toInt32 INT_MIN T_MOD
  unfold INT_MIN at h0
  unfold INT_MAX at h1
  omega

theorem numPixels_exact (x0 y0 x1 y1 : Int)
    (hfits : (|x1 - x0| + 1) * (|y1 - y0| + 1) ≤ INT_MAX) :
    toInt32 (toInt32 (toInt32 |toInt32 (x1 - x0)| + 1) * toInt32 (toInt32 |toInt32 (y1 - y0)| + 1))
      = (|x1 - x0| + 1) * (|y1 - y0| + 1) := by
  have ha : 0 ≤ |x1 - x0| := abs_nonneg _
  have hb : 0 ≤ |y1 - y0| := abs_nonneg _
  have ha1 : |x1 - x0| + 1 ≤ INT_MAX := by nlinarith
  have hb1 : |y1 - y0| + 1 ≤ INT_MAX := by nlinarith
  have hmin : INT_MIN ≤ 0 := by decide
  have hmax : (1 : Int) ≤ INT_MAX := by decide
  have hx := abs_le.1 (le_of_eq (rfl : |x1 - x0| = |x1 - x0|))
  have hy := abs_le.1 (le_of_eq (rfl : |y1 - y0| = |y1 - y0|))
  have hmm : INT_MIN = -INT_MAX - 1 := by decide
  rw [toInt32_of_range (x1 - x0) (by linarith [hx.1]) (by linarith [hx.2]),
    toInt32_of_range (y1 - y0) (by linarith [hy.1]) (by linarith [hy.2]),
    toInt32_of_range |x1 - x0| (by linarith) (by linarith),
    toInt32_of_range |y1 - y0| (by linarith) (by linarith),
    toInt32_of_range (|x1 - x0| + 1) (by linarith) ha1,
    toInt32_of_range (|y1 - y0| + 1) (by linarith) hb1,
    toInt32_of_range _ (by nlinarith) hfits]

theorem getAverage_eq {b : Bool} (noClamping : Bool) (t : Table b) (x0 y0 x1 y1 s : Int)
    (hs : getSum noClamping t x0 y0 x1 y1 = some s)
    (hfits : (|x1 - x0| + 1) * (|y1 - y0| + 1) ≤ INT_MAX) :
    getAverage noClamping t x0 y0 x1 y1
      = some ((s : ℚ) / (((|x1 - x0| + 1) * (|y1 - y0| + 1) : Int) : ℚ)) := by
  have hpos : (0 : ℚ) < (((|x1 - x0| + 1) * (|y1 - y0| + 1) : Int) : ℚ) := by
    have := numPixels_pos x0 y0 x1 y1
    exact_mod_cast this
  unfold getAverage
  rw [hs]
  simp only [Option.bind_eq_bind, Option.some_bind, numPixels_exact x0 y0 x1 y1 hfits,
    gt_iff_lt, hpos, if_true]

theorem getNonZeroAverage_eq (noClamping : Bool) (t : Table true) (x0 y0 x1 y1 s c : Int)
    (hs : getSum noClamping t x0 y0 x1 y1 = some s)
    (hc : getNonZeroCount noClamping t x0 y0 x1 y1 = some c) :
    getNonZeroAverage noClamping t x0 y0 x1 y1
      = some (if (c : ℚ) > 0 then (s : ℚ) / (c : ℚ) else 0) := by
  unfold getNonZeroAverage
  rw [hs, hc]
  simp only [Option.bind_eq_bind, Option.some_bind]

theorem bruteCount_eq_zero (buffer : Array Int) (w x0 y0 x1 y1 : Nat)
    (hz : ∀ i j, x0 ≤ i → i ≤ x1 → y0 ≤ j → j ≤ y1 → input buffer (j * w + i) = 0) :
    bruteCount buffer w x0 y0 x1 y1 = 0 := by
  unfold bruteCount
  rw [Finset.card_eq_zero, Finset.filter_eq_empty_iff]
  intro c hc
  rw [Finset.mem_product, Finset.mem_Icc, Finset.mem_Icc] at hc
  rw [hz c.2 c.1 hc.2.1 hc.2.2 hc.1.1 hc.1.2]
  decide


theorem clamped_offsets (w h a b c d : Nat) (hac : a ≤ c) (hc : c < w) (hbd : b ≤ d)
    (hd : d < h) :
    (0 ≤ (d : Int) * (w : Int) + (c : Int) ∧
      (d : Int) * (w : Int) + (c : Int) < (w : Int) * (h : Int)) ∧
    ((a : Int) > 0 ∧ (b : Int) > 0 → 0 ≤ ((b : Int) - 1) * (w : Int) + (a : Int) - 1 ∧
      ((b : Int) - 1) * (w : Int) + (a : Int) - 1 < (w : Int) * (h : Int)) ∧
    ((b : Int) > 0 → 0 ≤ ((b : Int) - 1) * (w : Int) + (c : Int) ∧
      ((b : Int) - 1) * (w : Int) + (c : Int) < (w : Int) * (h : Int)) ∧
    ((a : Int) > 0 → 0 ≤ (d : Int) * (w : Int) + (a : Int) - 1 ∧
      (d : Int) * (w : Int) + (a : Int) - 1 < (w : Int) * (h : Int)) := by
  refine ⟨idx_range w h c d hc hd, ?_, ?_, ?_⟩
  · intro hpos
    obtain ⟨a', rfl⟩ : ∃ a', a = a' + 1 := ⟨a - 1, by omega⟩
    obtain ⟨b', rfl⟩ : ∃ b', b = b' + 1 := ⟨b - 1, by omega⟩
    have := idx_range w h a' b' (by omega) (by omega)
    push_cast
    constructor
    · linarith [this.1]
    · linarith [this.2]
  · intro hpos
    obtain ⟨b', rfl⟩ : ∃ b', b = b' + 1 := ⟨b - 1, by omega⟩
    have := idx_range w h c b' hc (by omega)
    push_cast
    constructor
    · linarith [this.1]
    · linarith [this.2]
  · intro hpos
    obtain ⟨a', rfl⟩ : ∃ a', a = a' + 1 := ⟨a - 1, by omega⟩
    have := idx_range w h a' d (by omega) hd
    push_cast
    constructor
    · linarith [this.1]
    · linarith [this.2]

/-- C5. Clamping totality: on every table built for a width and a height of at least 1,
for every four integers the macro `CLAMP_SUMMED_AREA_TABLE_ARGS` yields coordinates with
`0 <= x0 <= x1 < width` and `0 <= y0 <= y1 < height`; each of the four plane offsets the
query body reads under its guard lies in `[0, width*height)`; `getSum` returns a value,
and so does `getNonZeroCount` when the non-zero plane is enabled. -/
theorem clamping_totality (b : Bool) (buffer : Array Int) (width height : Nat)
    (hw : 1 ≤ width) (hh : 1 ≤ height) (hfit : (width : Int) * (height : Int) ≤ INT_MAX)
    (hbuf : buffer.size = width * height) :
    ∃ t : Table b, ctor b buffer (width : Int) (height : Int) = Outcome.ok t ∧
      ∀ x0 y0 x1 y1 : Int, ∃ cx0 cy0 cx1 cy1 : Int,
        CLAMP_SUMMED_AREA_TABLE_ARGS false t.width_ t.height_ x0 y0 x1 y1
          = (cx0, cy0, cx1, cy1) ∧
        (0 ≤ cx0 ∧ cx0 ≤ cx1 ∧ cx1 < (width : Int)) ∧
        (0 ≤ cy0 ∧ cy0 ≤ cy1 ∧ cy1 < (height : Int)) ∧
        (0 ≤ cy1 * (width : Int) + cx1 ∧
          cy1 * (width : Int) + cx1 < (width : Int) * (height : Int)) ∧
        (cx0 > 0 ∧ cy0 > 0 → 0 ≤ (cy0 - 1) * (width : Int) + cx0 - 1 ∧
          (cy0 - 1) * (width : Int) + cx0 - 1 < (width : Int) * (height : Int)) ∧
        (cy0 > 0 → 0 ≤ (cy0 - 1) * (width : Int) + cx1 ∧
          (cy0 - 1) * (width : Int) + cx1 < (width : Int) * (height : Int)) ∧
        (cx0 > 0 → 0 ≤ cy1 * (width : Int) + cx0 - 1 ∧
          cy1 * (width : Int) + cx0 - 1 < (width : Int) * (height : Int)) ∧
        (∃ v, getSum false t x0 y0 x1 y1 = some v) ∧
        (match b, t with
          | true, t => ∃ v, getNonZeroCount false t x0 y0 x1 y1 = some v
          | false, _ => True) := by
  obtain ⟨t, hc, ht⟩ := ctor_spec b buffer width height hw hh hfit hbuf
  refine ⟨t, hc, ?_⟩
  intro x0 y0 x1 y1
  have hx0 := clampCoord_lt width hw x0
  have hx1 := clampCoord_lt width hw x1
  have hy0 := clampCoord_lt height hh y0
  have hy1 := clampCoord_lt height hh y1
  obtain ⟨o1, o2, o3, o4⟩ := clamped_offsets width height
    (min (clampCoord width x0) (clampCoord width x1))
    (min (clampCoord height y0) (clampCoord height y1))
    (max (clampCoord width x0) (clampCoord width x1))
    (max (clampCoord height y0) (clampCoord height y1))
    (by omega) (by omega) (by omega) (by omega)
  refine ⟨_, _, _, _, by rw [ht.width_eq, ht.height_eq, clamp_spec width height hw hh],
    by omega, by omega, o1, o2, o3, o4, ?_, ?_⟩
  · exact ⟨_, getSum_clamped buffer width height hw hh t ht x0 y0 x1 y1⟩
  · cases b with
    | false => trivial
    | true => exact ⟨_, getNonZeroCount_clamped buffer width height hw hh hfit t ht x0 y0 x1 y1⟩

/-- Witness of C5 on the grid of `test2`, at the tuple `(9, -3, -2, 100)`. -/
theorem clamping_totality_witness :
    ∃ t : Table true, ctor true test2Pixels 6 4 = Outcome.ok t ∧
      (∃ v, getSum false t 9 (-3) (-2) 100 = some v) ∧
      (∃ v, getNonZeroCount false t 9 (-3) (-2) 100 = some v) := by
  obtain ⟨t, hc, hq⟩ := clamping_totality true test2Pixels 6 4
    (by decide) (by decide) (by decide) (by decide)
  obtain ⟨_, _, _, _, _, _, _, _, _, _, _, hs, hn⟩ := hq 9 (-3) (-2) 100
  exact ⟨t, hc, hs, hn⟩

/-- C6. Clamped-rectangle semantics: in clamping mode, for every four integers,
`getSum(x0,y0,x1,y1)` returns, as an accumulator value, the brute-force sum `S` of the input
over the columns `min(cx0,cx1)..max(cx0,cx1)` and the rows `min(cy0,cy1)..max(cy0,cy1)`,
where each `c` is the argument clamped into `[0, width-1]` or `[0, height-1]`; it returns
`S` itself when `S` is representable in the accumulator; and the result is unchanged when
the two corners are exchanged. -/
theorem getSum_clamped_rectangle (b : Bool) (buffer : Array Int) (width height : Nat)
    (hw : 1 ≤ width) (hh : 1 ≤ height) (hfit : (width : Int) * (height : Int) ≤ INT_MAX)
    (hbuf : buffer.size = width * height) :
    ∃ t : Table b, ctor b buffer (width : Int) (height : Int) = Outcome.ok t ∧
      ∀ (x0 y0 x1 y1 S : Int),
        S = bruteSum buffer width
            (min (clampCoord width x0) (clampCoord width x1))
            (min (clampCoord height y0) (clampCoord height y1))
            (max (clampCoord width x0) (clampCoord width x1))
            (max (clampCoord height y0) (clampCoord height y1)) →
        getSum false t x0 y0 x1 y1 = some (toT S) ∧
        (0 ≤ S → S < T_MOD → getSum false t x0 y0 x1 y1 = some S) ∧
        getSum false t x0 y0 x1 y1 = getSum false t x1 y1 x0 y0 := by
  obtain ⟨t, hc, ht⟩ := ctor_spec b buffer width height hw hh hfit hbuf
  refine ⟨t, hc, ?_⟩
  intro x0 y0 x1 y1 S hS
  have hs := getSum_clamped buffer width height hw hh t ht x0 y0 x1 y1
  rw [← hS] at hs
  refine ⟨hs, ?_, ?_⟩
  · intro h0 h1
    rw [hs, toT_of_range _ h0 h1]
  · rw [getSum_clamped buffer width height hw hh t ht x0 y0 x1 y1,
      getSum_clamped buffer width height hw hh t ht x1 y1 x0 y0,
      Nat.min_comm (clampCoord width x1), Nat.min_comm (clampCoord height y1),
      Nat.max_comm (clampCoord width x1), Nat.max_comm (clampCoord height y1)]

/-- Witness of C6 on the grid of `test2`: the tuple `(9, 2, 3, -1)` is answered with the sum
9 of columns 3..5 and rows 0..2, and so is the tuple with the corners exchanged. -/
theorem getSum_clamped_rectangle_witness :
    ∃ t : Table true, ctor true test2Pixels 6 4 = Outcome.ok t ∧
      getSum false t 9 2 3 (-1) = some 9 ∧ getSum false t 3 (-1) 9 2 = some 9 := by
  obtain ⟨t, hc, hq⟩ := getSum_clamped_rectangle true test2Pixels 6 4
    (by decide) (by decide) (by decide) (by decide)
  obtain ⟨_, h1, h2⟩ := hq 9 2 3 (-1) 9 (by decide)
  have h3 := h1 (by decide) (by decide)
  exact ⟨t, hc, h3, by rw [← h2]; exact h3⟩

/-- C8. Non-zero average: on every table built with the non-zero plane, for every
coordinate tuple, `getSum` returns a sum `s` and `getNonZeroCount` a count `c >= 0`;
`getNonZeroAverage` is `s / c` when `c > 0` and `0` when `c == 0`; in particular it is `0`
whenever every sample of the clamped rectangle is zero. -/
theorem getNonZeroAverage_spec (buffer : Array Int) (width height : Nat)
    (hw : 1 ≤ width) (hh : 1 ≤ height) (hfit : (width : Int) * (height : Int) ≤ INT_MAX)
    (hbuf : buffer.size = width * height) :
    ∃ t : Table true, ctor true buffer (width : Int) (height : Int) = Outcome.ok t ∧
      ∀ x0 y0 x1 y1 : Int,
        (∃ s c : Int, getSum false t x0 y0 x1 y1 = some s ∧
          getNonZeroCount false t x0 y0 x1 y1 = some c ∧ 0 ≤ c ∧
          (0 < c → getNonZeroAverage false t x0 y0 x1 y1 = some ((s : ℚ) / (c : ℚ))) ∧
          (c = 0 → getNonZeroAverage false t x0 y0 x1 y1 = some 0)) ∧
        ((∀ i j : Nat,
            min (clampCoord width x0) (clampCoord width x1) ≤ i →
            i ≤ max (clampCoord width x0) (clampCoord width x1) →
            min (clampCoord height y0) (clampCoord height y1) ≤ j →
            j ≤ max (clampCoord height y0) (clampCoord height y1) →
            input buffer (j * width + i) = 0) →
          getNonZeroAverage false t x0 y0 x1 y1 = some 0) := by
  obtain ⟨t, hc, ht⟩ := ctor_spec true buffer width height hw hh hfit hbuf
  refine ⟨t, hc, ?_⟩
  intro x0 y0 x1 y1
  have hs := getSum_clamped buffer width height hw hh t ht x0 y0 x1 y1
  have hn := getNonZeroCount_clamped buffer width height hw hh hfit t ht x0 y0 x1 y1
  have havg := getNonZeroAverage_eq false t x0 y0 x1 y1 _ _ hs hn
  constructor
  · refine ⟨_, _, hs, hn, Int.natCast_nonneg _, ?_, ?_⟩
    · intro hpos
      have hq : ((0 : ℚ) < (((bruteCount buffer width
          (min (clampCoord width x0) (clampCoord width x1))
          (min (clampCoord height y0) (clampCoord height y1))
          (max (clampCoord width x0) (clampCoord width x1))
          (max (clampCoord height y0) (clampCoord height y1)) : Nat) : Int) : ℚ)) := by
        exact_mod_cast hpos
      rw [havg, if_pos hq]
    · intro hzero
      rw [havg, hzero]
      simp
  · intro hz
    rw [havg, bruteCount_eq_zero buffer width _ _ _ _ hz]
    simp

/-- Witness of C8 on the grid of `test2`: the rectangle of columns 0..1 holds only zeros
and its non-zero average is 0. -/
theorem getNonZeroAverage_spec_witness :
    ∃ t : Table true, ctor true test2Pixels 6 4 = Outcome.ok t ∧
      getNonZeroAverage false t 0 0 1 3 = some 0 := by
  obtain ⟨t, hc, hq⟩ := getNonZeroAverage_spec test2Pixels 6 4
    (by decide) (by decide) (by decide) (by decide)
  refine ⟨t, hc, (hq 0 0 1 3).2 ?_⟩
  intro i j _ hi _ hj
  have hi1 : i ≤ 1 := hi
  have hj3 : j ≤ 3 := hj
  interval_cases i <;> interval_cases j <;> decide

/-- C9. Single-pixel case: on the table built from a `width x height` input, for every
cell `(x, y)` of the grid, `getSum(x,y,x,y)` returns the sample `input[y*width+x]` as an
accumulator value, which is the sample itself when it is representable in the
accumulator, with and without the clamping macro. -/
theorem getSum_single_pixel (b noClamping : Bool) (buffer : Array Int) (width height : Nat)
    (hw : 1 ≤ width) (hh : 1 ≤ height) (hfit : (width : Int) * (height : Int) ≤ INT_MAX)
    (hbuf : buffer.size = width * height) :
    ∃ t : Table b, ctor b buffer (width : Int) (height : Int) = Outcome.ok t ∧
      ∀ x y : Nat, x < width → y < height →
        getSum noClamping t (x : Int) (y : Int) (x : Int) (y : Int)
          = some (toT (input buffer (y * width + x))) ∧
        (0 ≤ input buffer (y * width + x) → input buffer (y * width + x) < T_MOD →
          getSum noClamping t (x : Int) (y : Int) (x : Int) (y : Int)
            = some (input buffer (y * width + x))) := by
  obtain ⟨t, hc, ht⟩ := ctor_spec b buffer width height hw hh hfit hbuf
  refine ⟨t, hc, ?_⟩
  intro x y hx hy
  have hs := getSum_valid noClamping buffer width height t ht x y x y (Nat.le_refl _) hx
    (Nat.le_refl _) hy
  unfold bruteSum at hs
  rw [rectSum_single] at hs
  refine ⟨hs, ?_⟩
  intro h0 h1
  rw [hs, toT_of_range _ h0 h1]

/-- Witness of C9 on the grid of `test2`: `getSum(2,1,2,1) == 2`, the sample at offset 8. -/
theorem getSum_single_pixel_witness :
    ∃ t : Table true, ctor true test2Pixels 6 4 = Outcome.ok t ∧
      getSum false t 2 1 2 1 = some 2 := by
  obtain ⟨t, hc, hq⟩ := getSum_single_pixel true false test2Pixels 6 4
    (by decide) (by decide) (by decide) (by decide)
  exact ⟨t, hc, (hq 2 1 (by decide) (by decide)).2 (by decide) (by decide)⟩

/-- C10. Full-grid case: on the table built from a `width x height` input,
`getSum(0,0,width-1,height-1)` returns the last plane entry `sumPlane[width*height-1]`,
which is the sum of all `width*height` samples as an accumulator value, and that sum
itself when it is representable in the accumulator, with and without the clamping
macro. -/
theorem getSum_full_grid (b noClamping : Bool) (buffer : Array Int) (width height : Nat)
    (hw : 1 ≤ width) (hh : 1 ≤ height) (hfit : (width : Int) * (height : Int) ≤ INT_MAX)
    (hbuf : buffer.size = width * height) :
    ∃ t : Table b, ctor b buffer (width : Int) (height : Int) = Outcome.ok t ∧
      getSum noClamping t 0 0 ((width : Int) - 1) ((height : Int) - 1)
        = some (toT (∑ k in Finset.range (width * height), input buffer k)) ∧
      (0 ≤ ∑ k in Finset.range (width * height), input buffer k →
        ∑ k in Finset.range (width * height), input buffer k < T_MOD →
        getSum noClamping t 0 0 ((width : Int) - 1) ((height : Int) - 1)
          = some (∑ k in Finset.range (width * height), input buffer k)) ∧
      getSum noClamping t 0 0 ((width : Int) - 1) ((height : Int) - 1)
        = (getSAT t)[width * height - 1]? := by
  obtain ⟨t, hc, ht⟩ := ctor_spec b buffer width height hw hh hfit hbuf
  obtain ⟨w', rfl⟩ : ∃ w', width = w' + 1 := ⟨width - 1, by omega⟩
  obtain ⟨h', rfl⟩ : ∃ h', height = h' + 1 := ⟨height - 1, by omega⟩
  have hs := getSum_valid noClamping buffer (w' + 1) (h' + 1) t ht 0 0 w' h'
    (Nat.zero_le _) (by omega) (Nat.zero_le _) (by omega)
  have e1 : (((w' + 1 : Nat) : Int) - 1) = (w' : Int) := by push_cast; ring
  have e2 : (((h' + 1 : Nat) : Int) - 1) = (h' : Int) := by push_cast; ring
  have hs' : getSum noClamping t 0 0 (((w' + 1 : Nat) : Int) - 1) (((h' + 1 : Nat) : Int) - 1)
      = some (toT (bruteSum buffer (w' + 1) 0 0 w' h')) := by
    rw [e1, e2]; exact_mod_cast hs
  have hsum : bruteSum buffer (w' + 1) 0 0 w' h'
      = ∑ k in Finset.range ((w' + 1) * (h' + 1)), input buffer k := by
    unfold bruteSum
    rw [rectSum_origin, pre_full]
  refine ⟨t, hc, ?_, ?_, ?_⟩
  · rw [hs', hsum]
  · intro h0 h1
    rw [hs', hsum, toT_of_range _ h0 h1]
  · have hidx : (w' + 1) * (h' + 1) - 1 = h' * (w' + 1) + w' := by
      have : (w' + 1) * (h' + 1) = h' * (w' + 1) + w' + 1 := by ring
      omega
    have hcell : t.sat_[h' * (w' + 1) + w']?
        = some (toT (bruteSum buffer (w' + 1) 0 0 w' h')) :=
      plane_cell (ht.sat_cell w' h' (by omega) (by omega))
    rw [hs', hidx]
    exact hcell.symm

/-- Witness of C10 on the grid of `test2`: `getSum(0,0,5,3)` is the sum 17 of the 24
samples. -/
theorem getSum_full_grid_witness :
    ∃ t : Table true, ctor true test2Pixels 6 4 = Outcome.ok t ∧
      getSum false t 0 0 5 3 = some 17 ∧ getSum false t 0 0 5 3 = (getSAT t)[23]? := by
  obtain ⟨t, hc, _, hsum, hlast⟩ := getSum_full_grid true false test2Pixels 6 4
    (by decide) (by decide) (by decide) (by decide)
  have h1 := hsum (by decide) (by decide)
  have hv : (∑ k in Finset.range (6 * 4), input test2Pixels k) = 17 := by decide
  rw [hv] at h1
  exact ⟨t, hc, h1, hlast⟩


/-! ## The scenarios of `example.cpp` -/

theorem ctor_test1 :
    ctor true test1Pixels 6 1
      = Outcome.ok ⟨6, 1, #[0, 4, 4, 6, 7, 7], #[0, 1, 1, 2, 3, 3]⟩ := by
  decide

theorem ctor_test2 :
    ctor true test2Pixels 6 4
      = Outcome.ok ⟨6, 4,
          #[0, 0, 0, 2, 2, 2, 0, 0, 2, 4, 6, 6, 0, 0, 4, 9, 13, 13, 0, 0, 6, 11, 17, 17],
          #[0, 0, 0, 1, 1, 1, 0, 0, 1, 2, 3, 3, 0, 0, 2, 4, 6, 6, 0, 0, 3, 5, 8, 8]⟩ := by
  decide

/-- C11. Scenario of `test1`: on the row `[0,4,0,2,1,0]` (width 6, height 1) the constructor
returns a table with `getSum(0,0,5,0) == 7`, `getAverage(0,0,5,0) == 7/6` (within `0.0001`
of `1.1667`), `getNonZeroCount(0,0,5,0) == 3` and `getNonZeroAverage(0,0,5,0) == 7/3`
(within `0.001` of `2.333`). -/
theorem test1_scenario :
    ∃ t : Table true, ctor true test1Pixels 6 1 = Outcome.ok t ∧
      getSum false t 0 0 5 0 = some 7 ∧
      getAverage false t 0 0 5 0 = some (7 / 6) ∧
      |(7 / 6 : ℚ) - 1.1667| < 0.0001 ∧
      getNonZeroCount false t 0 0 5 0 = some 3 ∧
      getNonZeroAverage false t 0 0 5 0 = some (7 / 3) ∧
      |(7 / 3 : ℚ) - 2.333| < 0.001 := by
  refine ⟨_, ctor_test1, by decide, ?_, ?_, by decide, ?_, ?_⟩
  · rw [getAverage_eq false _ 0 0 5 0 7 (by decide) (by decide)]
    norm_num
  · rw [abs_lt]; norm_num
  · rw [getNonZeroAverage_eq false _ 0 0 5 0 7 3 (by decide) (by decide)]
    norm_num
  · rw [abs_lt]; norm_num

/-- C12. Scenario of `test2`: on the 6 x 4 example grid the single-cell query
`getSum(2,1,2,1)` returns 2 and the 2x2 block query `getSum(1,1,2,2)` returns 4. -/
theorem test2_cell_and_block :
    ∃ t : Table true, ctor true test2Pixels 6 4 = Outcome.ok t ∧
      getSum false t 2 1 2 1 = some 2 ∧ getSum false t 1 1 2 2 = some 4 := by
  exact ⟨_, ctor_test2, by decide, by decide⟩

/-- Counterexample to C13 as stated: on the 6 x 4 example grid `getSum(0,0,5,3)` is not 13
and `getSum(4,0,5,3)` is not 4. -/
theorem test2_whole_and_strip_counterexample :
    ∃ t : Table true, ctor true test2Pixels 6 4 = Outcome.ok t ∧
      getSum false t 0 0 5 3 ≠ some 13 ∧ getSum false t 4 0 5 3 ≠ some 4 := by
  exact ⟨_, ctor_test2, by decide, by decide⟩

/-- C13, amended. Scenario of `test2`: on the 6 x 4 example grid the whole-grid query
`getSum(0,0,5,3)` returns 17, the brute-force sum of the 24 samples, and the right-strip
query `getSum(4,0,5,3)` returns 6, the brute-force sum of columns 4..5. -/
theorem test2_whole_and_strip :
    ∃ t : Table true, ctor true test2Pixels 6 4 = Outcome.ok t ∧
      getSum false t 0 0 5 3 = some 17 ∧ bruteSum test2Pixels 6 0 0 5 3 = 17 ∧
      getSum false t 4 0 5 3 = some 6 ∧ bruteSum test2Pixels 6 4 0 5 3 = 6 := by
  exact ⟨_, ctor_test2, by decide, by decide, by decide, by decide⟩

/-- Counterexample to C14 as stated: on the 6 x 4 example grid `getNonZeroCount(0,0,5,3)`
is not 7, and `getNonZeroAverage(0,0,5,3)` is `17/8`, which is not within `0.001` of
`1.857`. -/
theorem test2_nonZero_counterexample :
    ∃ t : Table true, ctor true test2Pixels 6 4 = Outcome.ok t ∧
      getNonZeroCount false t 0 0 5 3 ≠ some 7 ∧
      getNonZeroAverage false t 0 0 5 3 = some (17 / 8) ∧
      ¬ (|(17 / 8 : ℚ) - 1.857| < 0.001) := by
  refine ⟨_, ctor_test2, by decide, ?_, ?_⟩
  · rw [getNonZeroAverage_eq false _ 0 0 5 3 17 8 (by decide) (by decide)]
    norm_num
  · rw [abs_lt]; norm_num

/-- C14, amended. Scenario of `test2`: on the 6 x 4 example grid
`getNonZeroCount(0,0,5,3)` returns 8, the brute-force count of the positive samples, and
`getNonZeroAverage(0,0,5,3)` is `17/8 = 2.125`. -/
theorem test2_nonZero :
    ∃ t : Table true, ctor true test2Pixels 6 4 = Outcome.ok t ∧
      getNonZeroCount false t 0 0 5 3 = some 8 ∧ bruteCount test2Pixels 6 0 0 5 3 = 8 ∧
      getNonZeroAverage false t 0 0 5 3 = some (17 / 8) ∧ (17 / 8 : ℚ) = 2.125 := by
  refine ⟨_, ctor_test2, by decide, by decide, ?_, by norm_num⟩
  rw [getNonZeroAverage_eq false _ 0 0 5 3 17 8 (by decide) (by decide)]
  norm_num

/-! ## Strict mode, wrap-around and additivity -/

theorem toT_range (z : Int) : 0 ≤ toT z ∧ toT z < T_MOD := by
  unfold toT T_MOD
  omega

theorem toT_emod (z : Int) : toT z % T_MOD = z % T_MOD := by
  unfold toT
  exact Int.emod_emod_of_dvd z (dvd_refl _)

theorem rectSum_nonneg (f : Nat → Int) (w x0 y0 x1 y1 : Nat)
    (hf : ∀ i j, x0 ≤ i → i ≤ x1 → y0 ≤ j → j ≤ y1 → 0 ≤ f (j * w + i)) :
    0 ≤ rectSum f w x0 y0 x1 y1 := by
  unfold rectSum
  refine Finset.sum_nonneg (fun j hj => Finset.sum_nonneg (fun i hi => ?_))
  rw [Finset.mem_Icc] at hi hj
  exact hf i j hi.1 hi.2 hj.1 hj.2

theorem rectSum_split_x (f : Nat → Int) (w x0 y0 x1 y1 xm : Nat) (h0 : x0 ≤ xm) (h1 : xm < x1)
    (hy : y0 ≤ y1) :
    rectSum f w x0 y0 x1 y1 = rectSum f w x0 y0 xm y1 + rectSum f w (xm + 1) y0 x1 y1 := by
  rw [rectSum_eq_pre f w x0 y0 x1 y1 (by omega) hy, rectSum_eq_pre f w x0 y0 xm y1 h0 hy,
    rectSum_eq_pre f w (xm + 1) y0 x1 y1 (by omega) hy]
  ring

theorem rectSum_split_y (f : Nat → Int) (w x0 y0 x1 y1 ym : Nat) (h0 : y0 ≤ ym) (h1 : ym < y1)
    (hx : x0 ≤ x1) :
    rectSum f w x0 y0 x1 y1 = rectSum f w x0 y0 x1 ym + rectSum f w x0 (ym + 1) x1 y1 := by
  rw [rectSum_eq_pre f w x0 y0 x1 y1 hx (by omega), rectSum_eq_pre f w x0 y0 x1 ym hx h0,
    rectSum_eq_pre f w x0 (ym + 1) x1 y1 hx (by omega)]
  ring

theorem bruteCount_split_x (buffer : Array Int) (w x0 y0 x1 y1 xm : Nat) (h0 : x0 ≤ xm)
    (h1 : xm < x1) (hy : y0 ≤ y1) :
    bruteCount buffer w x0 y0 x1 y1
      = bruteCount buffer w x0 y0 xm y1 + bruteCount buffer w (xm + 1) y0 x1 y1 := by
  have h := rectSum_split_x (indicator buffer) w x0 y0 x1 y1 xm h0 h1 hy
  rw [rectSum_indicator, rectSum_indicator, rectSum_indicator] at h
  exact_mod_cast h

theorem bruteCount_split_y (buffer : Array Int) (w x0 y0 x1 y1 ym : Nat) (h0 : y0 ≤ ym)
    (h1 : ym < y1) (hx : x0 ≤ x1) :
    bruteCount buffer w x0 y0 x1 y1
      = bruteCount buffer w x0 y0 x1 ym + bruteCount buffer w x0 (ym + 1) x1 y1 := by
  have h := rectSum_split_y (indicator buffer) w x0 y0 x1 y1 ym h0 h1 hx
  rw [rectSum_indicator, rectSum_indicator, rectSum_indicator] at h
  exact_mod_cast h

theorem toT_add_split (s l r : Int) (h : s = l + r) : toT s = toT (toT l + toT r) := by
  subst h
  simp only [toT, T_MOD]
  omega

/-- C18. Strict mode agrees with clamping mode on valid input: on every built table, for
every coordinate tuple with `0 <= x0 <= x1 < width` and `0 <= y0 <= y1 < height`, the macro
`CLAMP_SUMMED_AREA_TABLE_ARGS` leaves the four coordinates unchanged, the four plane
offsets read under their guards lie in `[0, width*height)`, and `getSum` (and
`getNonZeroCount` when the non-zero plane is enabled) compiled with
`NO_SUMMED_AREA_TABLE_CLAMPING` returns a value, the same value as in clamping mode. -/
theorem strict_agrees_with_clamping (b : Bool) (buffer : Array Int) (width height : Nat)
    (hw : 1 ≤ width) (hh : 1 ≤ height) (hfit : (width : Int) * (height : Int) ≤ INT_MAX)
    (hbuf : buffer.size = width * height) :
    ∃ t : Table b, ctor b buffer (width : Int) (height : Int) = Outcome.ok t ∧
      ∀ x0 y0 x1 y1 : Nat, x0 ≤ x1 → x1 < width → y0 ≤ y1 → y1 < height →
        CLAMP_SUMMED_AREA_TABLE_ARGS false t.width_ t.height_ (x0 : Int) (y0 : Int) (x1 : Int)
          (y1 : Int) = ((x0 : Int), (y0 : Int), (x1 : Int), (y1 : Int)) ∧
        ((0 ≤ (y1 : Int) * (width : Int) + (x1 : Int) ∧
            (y1 : Int) * (width : Int) + (x1 : Int) < (width : Int) * (height : Int)) ∧
          ((x0 : Int) > 0 ∧ (y0 : Int) > 0 →
            0 ≤ ((y0 : Int) - 1) * (width : Int) + (x0 : Int) - 1 ∧
            ((y0 : Int) - 1) * (width : Int) + (x0 : Int) - 1
              < (width : Int) * (height : Int)) ∧
          ((y0 : Int) > 0 → 0 ≤ ((y0 : Int) - 1) * (width : Int) + (x1 : Int) ∧
            ((y0 : Int) - 1) * (width : Int) + (x1 : Int) < (width : Int) * (height : Int)) ∧
          ((x0 : Int) > 0 → 0 ≤ (y1 : Int) * (width : Int) + (x0 : Int) - 1 ∧
            (y1 : Int) * (width : Int) + (x0 : Int) - 1 < (width : Int) * (height : Int))) ∧
        (∃ v, getSum true t (x0 : Int) (y0 : Int) (x1 : Int) (y1 : Int) = some v ∧
          getSum false t (x0 : Int) (y0 : Int) (x1 : Int) (y1 : Int) = some v) ∧
        (match b, t with
          | true, t =>
            ∃ v, getNonZeroCount true t (x0 : Int) (y0 : Int) (x1 : Int) (y1 : Int) = some v ∧
              getNonZeroCount false t (x0 : Int) (y0 : Int) (x1 : Int) (y1 : Int) = some v
          | false, _ => True) := by
  obtain ⟨t, hc, ht⟩ := ctor_spec b buffer width height hw hh hfit hbuf
  refine ⟨t, hc, ?_⟩
  intro x0 y0 x1 y1 hx hx1 hy hy1
  refine ⟨?_, clamped_offsets width height x0 y0 x1 y1 hx hx1 hy hy1, ?_, ?_⟩
  · rw [ht.width_eq, ht.height_eq]
    exact clamp_valid false width height x0 y0 x1 y1 hx hx1 hy hy1
  · exact ⟨_, getSum_valid true buffer width height t ht x0 y0 x1 y1 hx hx1 hy hy1,
      getSum_valid false buffer width height t ht x0 y0 x1 y1 hx hx1 hy hy1⟩
  · cases b with
    | false => trivial
    | true =>
      exact ⟨_, getNonZeroCount_valid true buffer width height hfit t ht x0 y0 x1 y1 hx hx1 hy hy1,
        getNonZeroCount_valid false buffer width height hfit t ht x0 y0 x1 y1 hx hx1 hy hy1⟩

/-- Witness of C18 on the grid of `test2`, at the rectangle `(2,1,4,2)`. -/
theorem strict_agrees_with_clamping_witness :
    ∃ t : Table true, ctor true test2Pixels 6 4 = Outcome.ok t ∧
      (∃ v, getSum true t 2 1 4 2 = some v ∧ getSum false t 2 1 4 2 = some v) ∧
      (∃ v, getNonZeroCount true t 2 1 4 2 = some v ∧
        getNonZeroCount false t 2 1 4 2 = some v) := by
  obtain ⟨t, hc, hq⟩ := strict_agrees_with_clamping true test2Pixels 6 4
    (by decide) (by decide) (by decide) (by decide)
  obtain ⟨_, _, hs, hn⟩ := hq 2 1 4 2 (by decide) (by decide) (by decide) (by decide)
  exact ⟨t, hc, hs, hn⟩

/-- C19. Wrap-around exactness for the `uint32_t` accumulator: on the built table, for
every valid rectangle, `getSum` returns an accumulator value congruent modulo `2^32` to the
brute-force rectangle sum, whatever the plane entries are; hence for non-negative samples
it is exactly that sum whenever the rectangle's own sum is below `2^32`. -/
theorem getSum_wraparound_exact (b noClamping : Bool) (buffer : Array Int)
    (width height : Nat) (hw : 1 ≤ width) (hh : 1 ≤ height)
    (hfit : (width : Int) * (height : Int) ≤ INT_MAX) (hbuf : buffer.size = width * height) :
    ∃ t : Table b, ctor b buffer (width : Int) (height : Int) = Outcome.ok t ∧
      ∀ x0 y0 x1 y1 : Nat, x0 ≤ x1 → x1 < width → y0 ≤ y1 → y1 < height →
        ∃ v, getSum noClamping t (x0 : Int) (y0 : Int) (x1 : Int) (y1 : Int) = some v ∧
          0 ≤ v ∧ v < T_MOD ∧
          v % T_MOD = bruteSum buffer width x0 y0 x1 y1 % T_MOD ∧
          ((∀ k, k < width * height → 0 ≤ input buffer k) →
            bruteSum buffer width x0 y0 x1 y1 < T_MOD →
            v = bruteSum buffer width x0 y0 x1 y1) := by
  obtain ⟨t, hc, ht⟩ := ctor_spec b buffer width height hw hh hfit hbuf
  refine ⟨t, hc, ?_⟩
  intro x0 y0 x1 y1 hx hx1 hy hy1
  refine ⟨_, getSum_valid noClamping buffer width height t ht x0 y0 x1 y1 hx hx1 hy hy1,
    (toT_range _).1, (toT_range _).2, toT_emod _, ?_⟩
  intro hnn hlt
  refine toT_of_range _ (rectSum_nonneg _ _ _ _ _ _ ?_) hlt
  intro i j _ hi _ hj
  exact hnn _ (idx_lt width height i j (by omega) (by omega))

/-- Witness of C19 on the 2 x 1 grid `[4294967295, 5]`: the prefix entry `sumPlane[1]` has
wrapped to 4, and `getSum(1,0,1,0)` is still the sample 5. -/
theorem getSum_wraparound_exact_witness :
    ∃ t : Table true, ctor true #[4294967295, 5] 2 1 = Outcome.ok t ∧
      (getSAT t)[1]? = some 4 ∧ getSum false t 1 0 1 0 = some 5 := by
  obtain ⟨t, hc, hq⟩ := getSum_wraparound_exact true false #[4294967295, 5] 2 1
    (by decide) (by decide) (by decide) (by decide)
  obtain ⟨v, hv, _, _, _, hex⟩ := hq 1 0 1 0 (by decide) (by decide) (by decide) (by decide)
  have hval := hex (by decide) (by decide)
  have ht : Outcome.ok t
      = (Outcome.ok ⟨2, 1, #[4294967295, 4], #[1, 2]⟩ : Outcome (Table true)) :=
    hc.symm.trans (by decide)
  have hplane : (getSAT t)[1]? = some 4 := by
    rw [Outcome.ok.inj ht]
    decide
  have h5 : bruteSum #[4294967295, 5] 2 1 0 1 0 = 5 := by decide
  rw [h5] at hval
  rw [hval] at hv
  exact ⟨t, hc, hplane, hv⟩

/-- C20. Additivity over a split: on the built table, for every valid rectangle and every
`xm` with `x0 <= xm < x1`, `getSum(x0,y0,x1,y1)` equals
`getSum(x0,y0,xm,y1) + getSum(xm+1,y0,x1,y1)` in accumulator arithmetic, and as integers
whenever the addition does not exceed the accumulator; likewise for every `ym` with
`y0 <= ym < y1`; and the same equations hold for `getNonZeroCount` as integers. -/
theorem getSum_additive_split (b noClamping : Bool) (buffer : Array Int)
    (width height : Nat) (hw : 1 ≤ width) (hh : 1 ≤ height)
    (hfit : (width : Int) * (height : Int) ≤ INT_MAX) (hbuf : buffer.size = width * height) :
    ∃ t : Table b, ctor b buffer (width : Int) (height : Int) = Outcome.ok t ∧
      ∀ x0 y0 x1 y1 : Nat, x0 ≤ x1 → x1 < width → y0 ≤ y1 → y1 < height →
        (∀ xm : Nat, x0 ≤ xm → xm < x1 → ∃ a l r : Int,
          getSum noClamping t (x0 : Int) (y0 : Int) (x1 : Int) (y1 : Int) = some a ∧
          getSum noClamping t (x0 : Int) (y0 : Int) (xm : Int) (y1 : Int) = some l ∧
          getSum noClamping t ((xm : Int) + 1) (y0 : Int) (x1 : Int) (y1 : Int) = some r ∧
          a = toT (l + r) ∧ (l + r < T_MOD → a = l + r)) ∧
        (∀ ym : Nat, y0 ≤ ym → ym < y1 → ∃ a l r : Int,
          getSum noClamping t (x0 : Int) (y0 : Int) (x1 : Int) (y1 : Int) = some a ∧
          getSum noClamping t (x0 : Int) (y0 : Int) (x1 : Int) (ym : Int) = some l ∧
          getSum noClamping t (x0 : Int) ((ym : Int) + 1) (x1 : Int) (y1 : Int) = some r ∧
          a = toT (l + r) ∧ (l + r < T_MOD → a = l + r)) ∧
        (match b, t with
          | true, t =>
            (∀ xm : Nat, x0 ≤ xm → xm < x1 → ∃ a l r : Int,
              getNonZeroCount noClamping t (x0 : Int) (y0 : Int) (x1 : Int) (y1 : Int)
                = some a ∧
              getNonZeroCount noClamping t (x0 : Int) (y0 : Int) (xm : Int) (y1 : Int)
                = some l ∧
              getNonZeroCount noClamping t ((xm : Int) + 1) (y0 : Int) (x1 : Int) (y1 : Int)
                = some r ∧
              a = l + r) ∧
            (∀ ym : Nat, y0 ≤ ym → ym < y1 → ∃ a l r : Int,
              getNonZeroCount noClamping t (x0 : Int) (y0 : Int) (x1 : Int) (y1 : Int)
                = some a ∧
              getNonZeroCount noClamping t (x0 : Int) (y0 : Int) (x1 : Int) (ym : Int)
                = some l ∧
              getNonZeroCount noClamping t (x0 : Int) ((ym : Int) + 1) (x1 : Int) (y1 : Int)
                = some r ∧
              a = l + r)
          | false, _ => True) := by
  obtain ⟨t, hc, ht⟩ := ctor_spec b buffer width height hw hh hfit hbuf
  refine ⟨t, hc, ?_⟩
  intro x0 y0 x1 y1 hx hx1 hy hy1
  have exact_of : ∀ s l r : Int, s = l + r →
      toT s = toT (toT l + toT r) ∧ (toT l + toT r < T_MOD → toT s = toT l + toT r) := by
    intro s l r h
    refine ⟨toT_add_split s l r h, fun hlt => ?_⟩
    rw [toT_add_split s l r h]
    exact toT_of_range _ (add_nonneg (toT_range l).1 (toT_range r).1) hlt
  refine ⟨?_, ?_, ?_⟩
  · intro xm h0 h1
    have e := exact_of _ _ _ (rectSum_split_x (input buffer) width x0 y0 x1 y1 xm h0 h1 hy)
    refine ⟨_, _, _, getSum_valid noClamping buffer width height t ht x0 y0 x1 y1 hx hx1 hy hy1,
      getSum_valid noClamping buffer width height t ht x0 y0 xm y1 h0 (by omega) hy hy1,
      ?_, e.1, e.2⟩
    have := getSum_valid noClamping buffer width height t ht (xm + 1) y0 x1 y1 (by omega) hx1
      hy hy1
    push_cast at this
    exact this
  · intro ym h0 h1
    have e := exact_of _ _ _ (rectSum_split_y (input buffer) width x0 y0 x1 y1 ym h0 h1 hx)
    refine ⟨_, _, _, getSum_valid noClamping buffer width height t ht x0 y0 x1 y1 hx hx1 hy hy1,
      getSum_valid noClamping buffer width height t ht x0 y0 x1 ym hx hx1 h0 (by omega),
      ?_, e.1, e.2⟩
    have := getSum_valid noClamping buffer width height t ht x0 (ym + 1) x1 y1 hx hx1
      (by omega) hy1
    push_cast at this
    exact this
  · cases b with
    | false => trivial
    | true =>
      refine ⟨?_, ?_⟩
      · intro xm h0 h1
        refine ⟨_, _, ((bruteCount buffer width (xm + 1) y0 x1 y1 : Nat) : Int),
          getNonZeroCount_valid noClamping buffer width height hfit t ht x0 y0 x1 y1 hx hx1 hy hy1,
          getNonZeroCount_valid noClamping buffer width height hfit t ht x0 y0 xm y1 h0
            (by omega) hy hy1, ?_, ?_⟩
        · have := getNonZeroCount_valid noClamping buffer width height hfit t ht (xm + 1) y0
            x1 y1 (by omega) hx1 hy hy1
          push_cast at this
          exact this
        · exact_mod_cast bruteCount_split_x buffer width x0 y0 x1 y1 xm h0 h1 hy
      · intro ym h0 h1
        refine ⟨_, _, ((bruteCount buffer width x0 (ym + 1) x1 y1 : Nat) : Int),
          getNonZeroCount_valid noClamping buffer width height hfit t ht x0 y0 x1 y1 hx hx1 hy hy1,
          getNonZeroCount_valid noClamping buffer width height hfit t ht x0 y0 x1 ym hx hx1
            h0 (by omega), ?_, ?_⟩
        · have := getNonZeroCount_valid noClamping buffer width height hfit t ht x0 (ym + 1)
            x1 y1 hx hx1 (by omega) hy1
          push_cast at this
          exact this
        · exact_mod_cast bruteCount_split_y buffer width x0 y0 x1 y1 ym h0 h1 hx

/-- Witness of C20 on the grid of `test2`: the rectangle `(1,0,4,3)` split after column 2
and after row 1. -/
theorem getSum_additive_split_witness :
    ∃ t : Table true, ctor true test2Pixels 6 4 = Outcome.ok t ∧
      (∃ a l r : Int, getSum false t 1 0 4 3 = some a ∧ getSum false t 1 0 2 3 = some l ∧
        getSum false t 3 0 4 3 = some r ∧ a = l + r) ∧
      (∃ a l r : Int, getNonZeroCount false t 1 0 4 3 = some a ∧
        getNonZeroCount false t 1 0 4 1 = some l ∧
        getNonZeroCount false t 1 2 4 3 = some r ∧ a = l + r) := by
  obtain ⟨t, hc, hq⟩ := getSum_additive_split true false test2Pixels 6 4
    (by decide) (by decide) (by decide) (by decide)
  obtain ⟨hxs, _, _, hyc⟩ := hq 1 0 4 3 (by decide) (by decide) (by decide) (by decide)
  obtain ⟨a, l, r, ha, hl, hr, hmod, _⟩ := hxs 2 (by decide) (by decide)
  obtain ⟨a', l', r', ha', hl', hr', hsum⟩ := hyc 1 (by decide) (by decide)
  have ht : Outcome.ok t = (Outcome.ok _ : Outcome (Table true)) := hc.symm.trans ctor_test2
  have hte := Outcome.ok.inj ht
  subst hte
  have hl2 : l = 6 := Option.some.inj (hl.symm.trans (by decide))
  have hr2 : r = 11 := Option.some.inj (hr.symm.trans (by decide))
  have ha2 : a = 17 := Option.some.inj (ha.symm.trans (by decide))
  refine ⟨_, hc, ⟨a, l, r, ha, hl, hr, ?_⟩, ⟨a', l', r', ha', hl', hr', hsum⟩⟩
  rw [ha2, hl2, hr2]
  rfl

/-! ## The recorded build computes the same plane -/

theorem iterateFrom_erase (body : Int → Array Int → Option (Array Int))
    (bodyT : Int → Traced → Option Traced)
    (hb : ∀ i s, (bodyT i s).map Traced.ptr = body i s.ptr) :
    ∀ (n : Nat) (i : Int) (s : Traced),
      (iterateFrom bodyT n i s).map Traced.ptr = iterateFrom body n i s.ptr := by
  intro n
  induction n with
  | zero => intro i s; rfl
  | succ n ih =>
    intro i s
    have h := hb i s
    simp only [iterateFrom]
    cases hT : bodyT i s with
    | none =>
      rw [hT] at h
      simp only [Option.map_none'] at h
      rw [← h]
      rfl
    | some s' =>
      rw [hT] at h
      simp only [Option.map_some'] at h
      rw [← h]
      simp only [Option.some_bind]
      exact ih (i + 1) s'

theorem forFromOne_erase (body : Int → Array Int → Option (Array Int))
    (bodyT : Int → Traced → Option Traced)
    (hb : ∀ i s, (bodyT i s).map Traced.ptr = body i s.ptr) (stop : Int) (s : Traced) :
    (forFromOne stop bodyT s).map Traced.ptr = forFromOne stop body s.ptr := by
  unfold forFromOne
  split_ifs
  · rfl
  · exact iterateFrom_erase body bodyT hb _ _ _

theorem readAtT_cases (s : Traced) (i : Int) :
    (readAtT s i = none ∧ readAt s.ptr i = none) ∨
      ∃ v, readAtT s i = some (v, ⟨s.ptr, Access.read i :: s.log⟩) ∧
        readAt s.ptr i = some v := by
  unfold readAtT
  cases readAt s.ptr i with
  | none => exact Or.inl ⟨rfl, rfl⟩
  | some v => exact Or.inr ⟨v, rfl, rfl⟩

theorem writeAtT_erase (s : Traced) (i v : Int) :
    (writeAtT s i v).map Traced.ptr = writeAt s.ptr i v := by
  unfold writeAtT
  cases writeAt s.ptr i v <;> rfl

theorem edge_erase (l : Int → Option Int) (o r t : Int) (s : Traced) :
    (do
      let v ← l o
      let a ← readAtT s r
      writeAtT a.2 t (toT (v + a.1)) : Option Traced).map Traced.ptr
    = (do
      let v ← l o
      let a ← readAt s.ptr r
      writeAt s.ptr t (toT (v + a))) := by
  cases l o with
  | none => rfl
  | some v =>
    rcases readAtT_cases s r with ⟨h1, h2⟩ | ⟨a, h1, h2⟩
    · simp [h1, h2]
    · simp only [Option.bind_eq_bind, Option.some_bind, h1, h2]
      exact writeAtT_erase _ _ _

theorem interior_erase (l : Int → Option Int) (o ra rb rc t : Int) (s : Traced) :
    (do
      let v ← l o
      let a ← readAtT s ra
      let b ← readAtT a.2 rb
      let c ← readAtT b.2 rc
      writeAtT c.2 t (toT (toT (toT (v + a.1) + b.1) - c.1)) : Option Traced).map Traced.ptr
    = (do
      let v ← l o
      let a ← readAt s.ptr ra
      let b ← readAt s.ptr rb
      let c ← readAt s.ptr rc
      writeAt s.ptr t (toT (toT (toT (v + a) + b) - c))) := by
  cases l o with
  | none => rfl
  | some v =>
    rcases readAtT_cases s ra with ⟨h1, h2⟩ | ⟨a, h1, h2⟩
    · simp [h1, h2]
    · rcases readAtT_cases ⟨s.ptr, Access.read ra :: s.log⟩ rb with ⟨h3, h4⟩ | ⟨b, h3, h4⟩
      · simp at h4
        simp [h1, h2, h3, h4]
      · rcases readAtT_cases ⟨s.ptr, Access.read rb :: Access.read ra :: s.log⟩ rc
          with ⟨h5, h6⟩ | ⟨c, h5, h6⟩
        · simp at h4 h6
          simp [h1, h2, h3, h4, h5, h6]
        · simp only at h4 h6
          simp only [Option.bind_eq_bind, Option.some_bind, h1, h2, h3, h4, h5, h6]
          exact writeAtT_erase _ _ _

theorem initializeSATTraced_erase (width height : Int) (s : Traced) (l : Int → Option Int) :
    (initializeSATTraced width height s l).map Traced.ptr
      = initializeSAT width height s.ptr l := by
  unfold initializeSATTraced initializeSAT
  cases l 0 with
  | none => rfl
  | some v =>
    have h0 := writeAtT_erase s 0 (toT v)
    simp only [Option.bind_eq_bind, Option.some_bind]
    cases hT0 : writeAtT s 0 (toT v) with
    | none =>
      rw [hT0] at h0
      simp only [Option.map_none'] at h0
      rw [← h0]
      rfl
    | some s0 =>
      rw [hT0] at h0
      simp only [Option.map_some'] at h0
      rw [← h0]
      simp only [Option.some_bind]
      have h1 := forFromOne_erase
        (fun x ptr => do
          let v ← l x
          let a ← readAt ptr (x - 1)
          writeAt ptr x (toT (v + a)))
        (fun x s => do
          let v ← l x
          let a ← readAtT s (x - 1)
          writeAtT a.2 x (toT (v + a.1)))
        (fun x s => edge_erase l x (x - 1) x s) width s0
      simp only [Option.bind_eq_bind] at h1
      cases hT1 : forFromOne width (fun x s => (l x).bind fun v =>
          (readAtT s (x - 1)).bind fun a => writeAtT a.2 x (toT (v + a.1))) s0 with
      | none =>
        rw [hT1] at h1
        simp only [Option.map_none'] at h1
        rw [← h1]
        rfl
      | some s1 =>
        rw [hT1] at h1
        simp only [Option.map_some'] at h1
        rw [← h1]
        simp only [Option.some_bind]
        have h2 := forFromOne_erase
          (fun y ptr => do
            let v ← l (y * width)
            let a ← readAt ptr ((y - 1) * width)
            writeAt ptr (y * width) (toT (v + a)))
          (fun y s => do
            let v ← l (y * width)
            let a ← readAtT s ((y - 1) * width)
            writeAtT a.2 (y * width) (toT (v + a.1)))
          (fun y s => edge_erase l (y * width) ((y - 1) * width) (y * width) s) height s1
        simp only [Option.bind_eq_bind] at h2
        cases hT2 : forFromOne height (fun y s => (l (y * width)).bind fun v =>
            (readAtT s ((y - 1) * width)).bind fun a =>
              writeAtT a.2 (y * width) (toT (v + a.1))) s1 with
        | none =>
          rw [hT2] at h2
          simp only [Option.map_none'] at h2
          rw [← h2]
          rfl
        | some s2 =>
          rw [hT2] at h2
          simp only [Option.map_some'] at h2
          rw [← h2]
          simp only [Option.some_bind]
          have h3 := forFromOne_erase
            (fun y ptr => forFromOne width (fun x ptr => do
              let v ← l (y * width + x)
              let a ← readAt ptr ((y - 1) * width + x)
              let b ← readAt ptr (y * width + x - 1)
              let c ← readAt ptr ((y - 1) * width + x - 1)
              writeAt ptr (y * width + x) (toT (toT (toT (v + a) + b) - c))) ptr)
            (fun y s => forFromOne width (fun x s => do
              let v ← l (y * width + x)
              let a ← readAtT s ((y - 1) * width + x)
              let b ← readAtT a.2 (y * width + x - 1)
              let c ← readAtT b.2 ((y - 1) * width + x - 1)
              writeAtT c.2 (y * width + x) (toT (toT (toT (v + a.1) + b.1) - c.1))) s)
            (fun y s => forFromOne_erase
              (fun x ptr => do
                let v ← l (y * width + x)
                let a ← readAt ptr ((y - 1) * width + x)
                let b ← readAt ptr (y * width + x - 1)
                let c ← readAt ptr ((y - 1) * width + x - 1)
                writeAt ptr (y * width + x) (toT (toT (toT (v + a) + b) - c)))
              (fun x s => do
                let v ← l (y * width + x)
                let a ← readAtT s ((y - 1) * width + x)
                let b ← readAtT a.2 (y * width + x - 1)
                let c ← readAtT b.2 ((y - 1) * width + x - 1)
                writeAtT c.2 (y * width + x) (toT (toT (toT (v + a.1) + b.1) - c.1)))
              (fun x s => interior_erase l (y * width + x) ((y - 1) * width + x)
                (y * width + x - 1) ((y - 1) * width + x - 1) (y * width + x) s) width s)
            height s2
          simp only [Option.bind_eq_bind] at h3
          exact h3

/-! ## The recorded accesses -/

theorem traceInv_congr {w h : Nat} {Done Done' : Nat → Nat → Prop} {s : Traced}
    (hD : ∀ x y, x < w → y < h → (Done x y ↔ Done' x y)) (hs : TraceInv w h Done s) :
    TraceInv w h Done' s := by
  obtain ⟨h1, h2, h3⟩ := hs
  refine ⟨h1, h2, fun i => ?_⟩
  rw [h3 i]
  constructor
  · rintro ⟨x, y, hx, hy, hd, hi⟩
    exact ⟨x, y, hx, hy, (hD x y hx hy).1 hd, hi⟩
  · rintro ⟨x, y, hx, hy, hd, hi⟩
    exact ⟨x, y, hx, hy, (hD x y hx hy).2 hd, hi⟩

theorem trace_read {w h : Nat} {Done : Nat → Nat → Prop} {s : Traced}
    (hs : TraceInv w h Done s) (x y : Nat) (hx : x < w) (hy : y < h) (hd : Done x y)
    (i : Int) (hi : i = ((y * w + x : Nat) : Int)) :
    ∃ r, readAtT s i = some r ∧ TraceInv w h Done r.2 := by
  obtain ⟨h1, h2, h3⟩ := hs
  have hlt : y * w + x < s.ptr.size := by
    rw [h1]; exact idx_lt w h x y hx hy
  have hrd : readAt s.ptr i = some (s.ptr[y * w + x]) := by
    rw [hi, readAt_natCast]
    exact Array.getElem?_eq_getElem hlt
  refine ⟨(s.ptr[y * w + x], ⟨s.ptr, Access.read i :: s.log⟩), ?_, h1, ?_, ?_⟩
  · simp [readAtT, hrd]
  · exact ⟨(h3 i).2 ⟨x, y, hx, hy, hd, hi⟩, h2⟩
  · intro j
    rw [← h3 j]
    simp

theorem trace_write {w h : Nat} {Done : Nat → Nat → Prop} {s : Traced}
    (hs : TraceInv w h Done s) (x y : Nat) (hx : x < w) (hy : y < h) (hnd : ¬ Done x y)
    (i : Int) (hi : i = ((y * w + x : Nat) : Int)) (v : Int) (Done' : Nat → Nat → Prop)
    (hD : ∀ a b, Done' a b ↔ (Done a b ∨ (a = x ∧ b = y))) :
    ∃ r, writeAtT s i v = some r ∧ TraceInv w h Done' r := by
  obtain ⟨h1, h2, h3⟩ := hs
  have hlt : y * w + x < s.ptr.size := by
    rw [h1]; exact idx_lt w h x y hx hy
  have hwr : writeAt s.ptr i v = some (s.ptr.set ⟨y * w + x, hlt⟩ v) := by
    rw [hi]; exact writeAt_natCast _ _ _ hlt
  refine ⟨⟨s.ptr.set ⟨y * w + x, hlt⟩ v, Access.write i :: s.log⟩, ?_, ?_, ?_, ?_⟩
  · simp [writeAtT, hwr]
  · simp [h1]
  · refine ⟨?_, h2⟩
    intro hmem
    obtain ⟨x', y', hx', _, hd', hi'⟩ := (h3 i).1 hmem
    rw [hi] at hi'
    have heq : y * w + x = y' * w + x' := by exact_mod_cast hi'
    obtain ⟨e1, e2⟩ := idx_inj w x y x' y' hx hx' heq
    subst e1; subst e2
    exact hnd hd'
  · intro j
    simp only [List.mem_cons, Access.write.injEq]
    rw [h3 j]
    constructor
    · rintro (hj | ⟨x', y', hx', hy', hd', hj'⟩)
      · exact ⟨x, y, hx, hy, (hD x y).2 (Or.inr ⟨rfl, rfl⟩), hj.trans hi⟩
      · exact ⟨x', y', hx', hy', (hD x' y').2 (Or.inl hd'), hj'⟩
    · rintro ⟨x', y', hx', hy', hd', hj'⟩
      rcases (hD x' y').1 hd' with hd | ⟨e1, e2⟩
      · exact Or.inr ⟨x', y', hx', hy', hd, hj'⟩
      · subst e1; subst e2
        exact Or.inl (hj'.trans hi.symm)

theorem wellOrdered_suffix : ∀ (later rest : List Access),
    WellOrdered (later ++ rest) → WellOrdered rest := by
  intro later
  induction later with
  | nil => intro rest h; exact h
  | cons a later ih =>
    intro rest h
    cases a with
    | read i => exact ih rest h.2
    | write i => exact ih rest h.2

theorem wellOrdered_read_mem : ∀ (log : List Access) (i : Int),
    WellOrdered log → Access.read i ∈ log → Access.write i ∈ log := by
  intro log
  induction log with
  | nil => intro i _ h; simp at h
  | cons a rest ih =>
    intro i hwo hmem
    cases a with
    | read j =>
      rcases List.mem_cons.1 hmem with h | h
      · have hj : i = j := by injection h
        subst hj
        exact List.mem_cons_of_mem _ hwo.1
      · exact List.mem_cons_of_mem _ (ih i hwo.2 h)
    | write j =>
      rcases List.mem_cons.1 hmem with h | h
      · cases h
      · exact List.mem_cons_of_mem _ (ih i hwo.2 h)

theorem wellOrdered_count : ∀ (log : List Access) (i : Int),
    WellOrdered log → Access.write i ∈ log → log.count (Access.write i) = 1 := by
  intro log
  induction log with
  | nil => intro i _ h; simp at h
  | cons a rest ih =>
    intro i hwo hmem
    cases a with
    | read j =>
      have hne : (Access.read j == Access.write i) = false := by simp
      rw [List.count_cons, hne]
      rcases List.mem_cons.1 hmem with h | h
      · cases h
      · simpa using ih i hwo.2 h
    | write j =>
      by_cases hji : j = i
      · subst hji
        have h0 : rest.count (Access.write j) = 0 := List.count_eq_zero.2 hwo.1
        rw [List.count_cons, h0]
        simp
      · have hne : (Access.write j == Access.write i) = false := by simp [hji]
        rw [List.count_cons, hne]
        rcases List.mem_cons.1 hmem with h | h
        · have : i = j := by injection h
          exact absurd this.symm hji
        · simpa using ih i hwo.2 h

theorem topRow_trace (w h : Nat) (hw : 0 < w) (hh : 0 < h) (l : Int → Option Int)
    (hl : ∀ i : Nat, i < w * h → ∃ v, l (i : Int) = some v) (s : Traced)
    (hs : TraceInv w h (fun x y => y = 0 ∧ x < 1) s) :
    ∃ r, forFromOne (w : Int) (fun x s => do
        let v ← l x
        let a ← readAtT s (x - 1)
        writeAtT a.2 x (toT (v + a.1))) s = some r ∧
      TraceInv w h (fun x y => y = 0 ∧ x < w) r := by
  refine forFromOne_inv (fun x s => do
        let v ← l x
        let a ← readAtT s (x - 1)
        writeAtT a.2 x (toT (v + a.1)))
    (fun k s => TraceInv w h (fun x y => y = 0 ∧ x < k) s) w hw s hs ?_
  intro k s hk hkw hinv
  obtain ⟨k', rfl⟩ : ∃ k', k = k' + 1 := ⟨k - 1, by omega⟩
  obtain ⟨v, hv⟩ := hl (k' + 1) (by simpa using idx_lt w h (k' + 1) 0 hkw hh)
  obtain ⟨a, ha, hinv1⟩ := trace_read hinv k' 0 (by omega) hh ⟨rfl, by omega⟩
    (((k' + 1 : Nat) : Int) - 1) (by push_cast; ring)
  obtain ⟨r, hr, hinv2⟩ := trace_write hinv1 (k' + 1) 0 hkw hh (by omega)
    ((k' + 1 : Nat) : Int) (by push_cast; ring) (toT (v + a.1))
    (fun x y => y = 0 ∧ x < k' + 1 + 1) (by intro a b; omega)
  exact ⟨r, bind_eq_some_of hv (bind_eq_some_of ha hr), hinv2⟩

theorem leftColumn_trace (w h : Nat) (hw : 0 < w) (hh : 0 < h) (l : Int → Option Int)
    (hl : ∀ i : Nat, i < w * h → ∃ v, l (i : Int) = some v) (s : Traced)
    (hs : TraceInv w h (fun x y => y = 0 ∨ (x = 0 ∧ y < 1)) s) :
    ∃ r, forFromOne (h : Int) (fun y s => do
        let v ← l (y * (w : Int))
        let a ← readAtT s ((y - 1) * (w : Int))
        writeAtT a.2 (y * (w : Int)) (toT (v + a.1))) s = some r ∧
      TraceInv w h (fun x y => y = 0 ∨ (x = 0 ∧ y < h)) r := by
  refine forFromOne_inv (fun y s => do
        let v ← l (y * (w : Int))
        let a ← readAtT s ((y - 1) * (w : Int))
        writeAtT a.2 (y * (w : Int)) (toT (v + a.1)))
    (fun k s => TraceInv w h (fun x y => y = 0 ∨ (x = 0 ∧ y < k)) s) h hh s hs ?_
  intro k s hk hkh hinv
  obtain ⟨k', rfl⟩ : ∃ k', k = k' + 1 := ⟨k - 1, by omega⟩
  obtain ⟨v, hv⟩ := hl ((k' + 1) * w) (by simpa using idx_lt w h 0 (k' + 1) hw hkh)
  have hv' : l (((k' + 1 : Nat) : Int) * (w : Int)) = some v := by
    push_cast at hv ⊢
    exact hv
  obtain ⟨a, ha, hinv1⟩ := trace_read hinv 0 k' hw (by omega) (Or.inr ⟨rfl, by omega⟩)
    ((((k' + 1 : Nat) : Int) - 1) * (w : Int)) (by push_cast; ring)
  obtain ⟨r, hr, hinv2⟩ := trace_write hinv1 0 (k' + 1) hw hkh (by omega)
    (((k' + 1 : Nat) : Int) * (w : Int)) (by push_cast; ring) (toT (v + a.1))
    (fun x y => y = 0 ∨ (x = 0 ∧ y < k' + 1 + 1)) (by intro a b; omega)
  exact ⟨r, bind_eq_some_of hv' (bind_eq_some_of ha hr), hinv2⟩

theorem interiorRow_trace (w h : Nat) (hw : 0 < w) (l : Int → Option Int)
    (hl : ∀ i : Nat, i < w * h → ∃ v, l (i : Int) = some v) (y' : Nat) (hy : y' + 1 < h)
    (s : Traced)
    (hs : TraceInv w h (fun x y => y = 0 ∨ x = 0 ∨ y < y' + 1 ∨ (y = y' + 1 ∧ x < 1)) s) :
    ∃ r, forFromOne (w : Int) (fun x s => do
        let v ← l (((y' + 1 : Nat) : Int) * (w : Int) + x)
        let a ← readAtT s ((((y' + 1 : Nat) : Int) - 1) * (w : Int) + x)
        let b ← readAtT a.2 (((y' + 1 : Nat) : Int) * (w : Int) + x - 1)
        let c ← readAtT b.2 ((((y' + 1 : Nat) : Int) - 1) * (w : Int) + x - 1)
        writeAtT c.2 (((y' + 1 : Nat) : Int) * (w : Int) + x)
          (toT (toT (toT (v + a.1) + b.1) - c.1))) s = some r ∧
      TraceInv w h (fun x y => y = 0 ∨ x = 0 ∨ y < y' + 1 ∨ (y = y' + 1 ∧ x < w)) r := by
  refine forFromOne_inv (fun x s => do
        let v ← l (((y' + 1 : Nat) : Int) * (w : Int) + x)
        let a ← readAtT s ((((y' + 1 : Nat) : Int) - 1) * (w : Int) + x)
        let b ← readAtT a.2 (((y' + 1 : Nat) : Int) * (w : Int) + x - 1)
        let c ← readAtT b.2 ((((y' + 1 : Nat) : Int) - 1) * (w : Int) + x - 1)
        writeAtT c.2 (((y' + 1 : Nat) : Int) * (w : Int) + x)
          (toT (toT (toT (v + a.1) + b.1) - c.1)))
    (fun k s => TraceInv w h
      (fun x y => y = 0 ∨ x = 0 ∨ y < y' + 1 ∨ (y = y' + 1 ∧ x < k)) s) w hw s hs ?_
  intro k s hk hkw hinv
  obtain ⟨k', rfl⟩ : ∃ k', k = k' + 1 := ⟨k - 1, by omega⟩
  obtain ⟨v, hv⟩ := hl ((y' + 1) * w + (k' + 1)) (idx_lt w h (k' + 1) (y' + 1) hkw hy)
  have hv' : l (((y' + 1 : Nat) : Int) * (w : Int) + ((k' + 1 : Nat) : Int)) = some v := by
    push_cast at hv ⊢
    exact hv
  obtain ⟨a, ha, hinv1⟩ := trace_read hinv (k' + 1) y' hkw (by omega)
    (Or.inr (Or.inr (Or.inl (by omega))))
    ((((y' + 1 : Nat) : Int) - 1) * (w : Int) + ((k' + 1 : Nat) : Int)) (by push_cast; ring)
  obtain ⟨b, hb, hinv2⟩ := trace_read hinv1 k' (y' + 1) (by omega) hy
    (Or.inr (Or.inr (Or.inr ⟨rfl, by omega⟩)))
    (((y' + 1 : Nat) : Int) * (w : Int) + ((k' + 1 : Nat) : Int) - 1) (by push_cast; ring)
  obtain ⟨c, hc, hinv3⟩ := trace_read hinv2 k' y' (by omega) (by omega)
    (Or.inr (Or.inr (Or.inl (by omega))))
    ((((y' + 1 : Nat) : Int) - 1) * (w : Int) + ((k' + 1 : Nat) : Int) - 1)
    (by push_cast; ring)
  obtain ⟨r, hr, hinv4⟩ := trace_write hinv3 (k' + 1) (y' + 1) hkw hy (by omega)
    (((y' + 1 : Nat) : Int) * (w : Int) + ((k' + 1 : Nat) : Int)) (by push_cast; ring)
    (toT (toT (toT (v + a.1) + b.1) - c.1))
    (fun x y => y = 0 ∨ x = 0 ∨ y < y' + 1 ∨ (y = y' + 1 ∧ x < k' + 1 + 1))
    (by intro a b; omega)
  exact ⟨r, bind_eq_some_of hv' (bind_eq_some_of ha (bind_eq_some_of hb
    (bind_eq_some_of hc hr))), hinv4⟩

theorem interior_trace (w h : Nat) (hw : 0 < w) (hh : 0 < h) (l : Int → Option Int)
    (hl : ∀ i : Nat, i < w * h → ∃ v, l (i : Int) = some v) (s : Traced)
    (hs : TraceInv w h (fun x y => y = 0 ∨ x = 0 ∨ y < 1) s) :
    ∃ r, forFromOne (h : Int) (fun y s =>
      forFromOne (w : Int) (fun x s => do
        let v ← l (y * (w : Int) + x)
        let a ← readAtT s ((y - 1) * (w : Int) + x)
        let b ← readAtT a.2 (y * (w : Int) + x - 1)
        let c ← readAtT b.2 ((y - 1) * (w : Int) + x - 1)
        writeAtT c.2 (y * (w : Int) + x) (toT (toT (toT (v + a.1) + b.1) - c.1))) s) s
        = some r ∧
      TraceInv w h (fun x y => y = 0 ∨ x = 0 ∨ y < h) r := by
  refine forFromOne_inv (fun y s =>
      forFromOne (w : Int) (fun x s => do
        let v ← l (y * (w : Int) + x)
        let a ← readAtT s ((y - 1) * (w : Int) + x)
        let b ← readAtT a.2 (y * (w : Int) + x - 1)
        let c ← readAtT b.2 ((y - 1) * (w : Int) + x - 1)
        writeAtT c.2 (y * (w : Int) + x) (toT (toT (toT (v + a.1) + b.1) - c.1))) s)
    (fun k s => TraceInv w h (fun x y => y = 0 ∨ x = 0 ∨ y < k) s) h hh s hs ?_
  intro k s hk hkh hinv
  obtain ⟨k', rfl⟩ : ∃ k', k = k' + 1 := ⟨k - 1, by omega⟩
  obtain ⟨r, hr, hinv'⟩ := interiorRow_trace w h hw l hl k' hkh s
    (traceInv_congr (fun x y _ _ => by omega) hinv)
  exact ⟨r, hr, traceInv_congr (fun x y _ _ => by omega) hinv'⟩

theorem initializeSATTraced_spec (w h : Nat) (hw : 0 < w) (hh : 0 < h) (l : Int → Option Int)
    (hl : ∀ i : Nat, i < w * h → ∃ v, l (i : Int) = some v)
    (p : Array Int) (hp : p.size = w * h) :
    ∃ r, initializeSATTraced (w : Int) (h : Int) ⟨p, []⟩ l = some r ∧
      TraceInv w h (fun _ _ => True) r := by
  have hwh : 0 < w * h := Nat.mul_pos hw hh
  obtain ⟨v, hv⟩ := hl 0 hwh
  have hv0 : l 0 = some v := by simpa using hv
  have hinit : TraceInv w h (fun _ _ => False) ⟨p, []⟩ := by
    refine ⟨hp, trivial, fun i => ?_⟩
    simp
  obtain ⟨s0, hs0, hinv0⟩ := trace_write hinit 0 0 hw hh (by simp) 0 (by simp) (toT v)
    (fun x y => y = 0 ∧ x < 1) (by intro a b; simp only [false_or]; omega)
  obtain ⟨s1, hs1, hinv1⟩ := topRow_trace w h hw hh l hl s0 hinv0
  obtain ⟨s2, hs2, hinv2⟩ := leftColumn_trace w h hw hh l hl s1
    (traceInv_congr (fun x y _ _ => by omega) hinv1)
  obtain ⟨s3, hs3, hinv3⟩ := interior_trace w h hw hh l hl s2
    (traceInv_congr (fun x y _ _ => by omega) hinv2)
  refine ⟨s3, ?_, traceInv_congr (fun x y _ _ => by simp; omega) hinv3⟩
  exact bind_eq_some_of hv0 (bind_eq_some_of hs0 (bind_eq_some_of hs1
    (bind_eq_some_of hs2 hs3)))

/-! ## Monotone planes, dimension checks, and the pass order -/

theorem indicator_nonneg (buffer : Array Int) (k : Nat) : 0 ≤ indicator buffer k := by
  unfold indicator
  split_ifs <;> decide

theorem rectSum_indicator_lt (buffer : Array Int) (w h x0 y0 x1 y1 : Nat) (hx1 : x1 < w)
    (hy1 : y1 < h) (hfit : (w : Int) * (h : Int) ≤ INT_MAX) :
    rectSum (indicator buffer) w x0 y0 x1 y1 < T_MOD := by
  rw [rectSum_indicator]
  have h1 := bruteCount_le buffer w h x0 y0 x1 y1 hx1 hy1
  have h2 : ((bruteCount buffer w x0 y0 x1 y1 : Nat) : Int) ≤ ((w * h : Nat) : Int) := by
    exact_mod_cast h1
  push_cast at h2
  unfold INT_MAX at hfit
  unfold T_MOD
  omega

theorem plane_mono_x (f : Nat → Int) (w h : Nat) (p : Array Int)
    (hcells : ∀ x y, x < w → y < h → Cell f w p x y) (hf : ∀ k, k < w * h → 0 ≤ f k)
    (x y : Nat) (hx : x + 1 < w) (hy : y < h) (hlt : rectSum f w 0 0 (x + 1) y < T_MOD) :
    ∃ a c, p[y * w + x]? = some a ∧ p[y * w + x + 1]? = some c ∧ a ≤ c := by
  have hnn : ∀ x0 y0 x1 y1, x1 < w → y1 < h → 0 ≤ rectSum f w x0 y0 x1 y1 := by
    intro x0 y0 x1 y1 h1 h2
    exact rectSum_nonneg f w x0 y0 x1 y1
      (fun i j _ hi _ hj => hf _ (idx_lt w h i j (by omega) (by omega)))
  have hsplit := rectSum_split_x f w 0 0 (x + 1) y x (Nat.zero_le _) (Nat.lt_succ_self _)
    (Nat.zero_le _)
  have h0 := hnn 0 0 x y (by omega) hy
  have h1 := hnn (x + 1) 0 (x + 1) y hx hy
  refine ⟨_, _, plane_cell (hcells x y (by omega) hy), plane_cell (hcells (x + 1) y hx hy), ?_⟩
  rw [toT_of_range _ h0 (by omega), toT_of_range _ (by omega) hlt]
  omega

theorem plane_mono_y (f : Nat → Int) (w h : Nat) (p : Array Int)
    (hcells : ∀ x y, x < w → y < h → Cell f w p x y) (hf : ∀ k, k < w * h → 0 ≤ f k)
    (x y : Nat) (hx : x < w) (hy : y + 1 < h) (hlt : rectSum f w 0 0 x (y + 1) < T_MOD) :
    ∃ a c, p[y * w + x]? = some a ∧ p[(y + 1) * w + x]? = some c ∧ a ≤ c := by
  have hnn : ∀ x0 y0 x1 y1, x1 < w → y1 < h → 0 ≤ rectSum f w x0 y0 x1 y1 := by
    intro x0 y0 x1 y1 h1 h2
    exact rectSum_nonneg f w x0 y0 x1 y1
      (fun i j _ hi _ hj => hf _ (idx_lt w h i j (by omega) (by omega)))
  have hsplit := rectSum_split_y f w 0 0 x (y + 1) y (Nat.zero_le _) (Nat.lt_succ_self _)
    (Nat.zero_le _)
  have h0 := hnn 0 0 x y hx (by omega)
  have h1 := hnn 0 (y + 1) x (y + 1) hx hy
  refine ⟨_, _, plane_cell (hcells x y hx (by omega)), plane_cell (hcells x (y + 1) hx hy), ?_⟩
  rw [toT_of_range _ h0 (by omega), toT_of_range _ (by omega) hlt]
  omega

theorem initializeSAT_nonpositive_width (width height : Int) (hw : width < 1)
    (p : Array Int) (l : Int → Option Int) : initializeSAT width height p l = none := by
  unfold initializeSAT
  cases l 0 with
  | none => rfl
  | some v =>
    simp only [Option.bind_eq_bind, Option.some_bind]
    cases writeAt p 0 (toT v) with
    | none => rfl
    | some q => simp [forFromOne, hw]

/-- C15. Monotone planes: on the built table the non-zero plane is non-decreasing along
`x` with the row fixed and along `y` with the column fixed, for every input; and so is the
sum plane for non-negative samples, wherever the larger of the two prefix sums is
representable in the accumulator. -/
theorem planes_monotone (buffer : Array Int) (width height : Nat)
    (hw : 1 ≤ width) (hh : 1 ≤ height) (hfit : (width : Int) * (height : Int) ≤ INT_MAX)
    (hbuf : buffer.size = width * height) :
    ∃ t : Table true, ctor true buffer (width : Int) (height : Int) = Outcome.ok t ∧
      (∀ x y : Nat, x + 1 < width → y < height →
        (∃ a c, (getSATNonZero t)[y * width + x]? = some a ∧
          (getSATNonZero t)[y * width + x + 1]? = some c ∧ a ≤ c) ∧
        ((∀ k, k < width * height → 0 ≤ input buffer k) →
          bruteSum buffer width 0 0 (x + 1) y < T_MOD →
          ∃ a c, (getSAT t)[y * width + x]? = some a ∧
            (getSAT t)[y * width + x + 1]? = some c ∧ a ≤ c)) ∧
      (∀ x y : Nat, x < width → y + 1 < height →
        (∃ a c, (getSATNonZero t)[y * width + x]? = some a ∧
          (getSATNonZero t)[(y + 1) * width + x]? = some c ∧ a ≤ c) ∧
        ((∀ k, k < width * height → 0 ≤ input buffer k) →
          bruteSum buffer width 0 0 x (y + 1) < T_MOD →
          ∃ a c, (getSAT t)[y * width + x]? = some a ∧
            (getSAT t)[(y + 1) * width + x]? = some c ∧ a ≤ c)) := by
  obtain ⟨t, hc, ht⟩ := ctor_spec true buffer width height hw hh hfit hbuf
  refine ⟨t, hc, ?_, ?_⟩
  · intro x y hx hy
    exact ⟨plane_mono_x (indicator buffer) width height t.satNZ_ (ht.satNZ_cell rfl)
        (fun k _ => indicator_nonneg buffer k) x y hx hy
        (rectSum_indicator_lt buffer width height 0 0 (x + 1) y hx hy hfit),
      fun hnn hlt => plane_mono_x (input buffer) width height t.sat_ ht.sat_cell hnn x y hx hy
        hlt⟩
  · intro x y hx hy
    exact ⟨plane_mono_y (indicator buffer) width height t.satNZ_ (ht.satNZ_cell rfl)
        (fun k _ => indicator_nonneg buffer k) x y hx hy
        (rectSum_indicator_lt buffer width height 0 0 x (y + 1) hx hy hfit),
      fun hnn hlt => plane_mono_y (input buffer) width height t.sat_ ht.sat_cell hnn x y hx hy
        hlt⟩

/-- Witness of C15 on the grid of `test2`, at the cell `(3, 2)` and its right and lower
neighbours. -/
theorem planes_monotone_witness :
    ∃ t : Table true, ctor true test2Pixels 6 4 = Outcome.ok t ∧
      (∃ a c, (getSAT t)[2 * 6 + 3]? = some a ∧ (getSAT t)[2 * 6 + 3 + 1]? = some c ∧ a ≤ c) ∧
      (∃ a c, (getSATNonZero t)[2 * 6 + 3]? = some a ∧
        (getSATNonZero t)[(2 + 1) * 6 + 3]? = some c ∧ a ≤ c) := by
  obtain ⟨t, hc, hxs, hys⟩ := planes_monotone test2Pixels 6 4
    (by decide) (by decide) (by decide) (by decide)
  have hnn : ∀ k, k < 6 * 4 → 0 ≤ input test2Pixels k := by decide
  exact ⟨t, hc, (hxs 3 2 (by decide) (by decide)).2 hnn (by decide),
    (hys 3 2 (by decide) (by decide)).1⟩

/-- C16, the code at invalid dimensions: `assert(width)` and `assert(height)` stop the
constructor when a dimension is zero; a negative dimension passes both. With one negative
dimension the vector constructor throws `std::length_error`; with two, the behaviour is
undefined: when the product fits an `int` the planes are allocated, the asserts pass, and
`initializeSAT` runs loops whose exit test `x != width_` cannot become true, as on
`width = height = -1`. -/
theorem ctor_invalid_dimensions :
    (∀ (b : Bool) (buffer : Array Int) (width height : Int),
      width = 0 ∨ height = 0 → ctor b buffer width height = Outcome.assertFailed) ∧
    (∀ (b : Bool) (buffer : Array Int) (width height : Int),
      (width < 0 ∧ 0 < height) ∨ (0 < width ∧ height < 0) → INT_MIN ≤ width * height →
      ctor b buffer width height = Outcome.lengthError) ∧
    (∀ (b : Bool) (buffer : Array Int) (width height : Int),
      width < 0 → height < 0 → ctor b buffer width height = Outcome.undefined) ∧
    ctor true #[7] (-1) (-1) = Outcome.undefined ∧
    ctor true #[7] (-1) 1 = Outcome.lengthError ∧
    ctor true #[7] 0 1 = Outcome.assertFailed := by
  refine ⟨?_, ?_, ?_, by decide, by decide, by decide⟩
  · intro b buffer width height h0
    have hz : width * height = 0 := by
      rcases h0 with h | h <;> simp [h]
    unfold ctor
    rw [hz]
    rcases h0 with h | h
    · simp [h, INT_MIN, INT_MAX]
    · by_cases hw : width = 0
      · simp [hw, INT_MIN, INT_MAX]
      · simp [h, hw, INT_MIN, INT_MAX]
  · intro b buffer width height hs hmin
    have hneg : width * height < 0 := by
      rcases hs with ⟨h1, h2⟩ | ⟨h1, h2⟩
      · exact mul_neg_of_neg_of_pos h1 h2
      · exact mul_neg_of_pos_of_neg h1 h2
    have h1 : ¬ (width * height < INT_MIN ∨ INT_MAX < width * height) := by
      unfold INT_MAX
      omega
    simp only [ctor, h1, hneg, if_false, if_true]
  · intro b buffer width height hw hh
    have hpos : 0 < width * height := mul_pos_of_neg_of_neg hw hh
    by_cases hmax : INT_MAX < width * height
    · simp only [ctor, hmax, or_true, if_true]
    have h1 : ¬ (width * height < INT_MIN ∨ INT_MAX < width * height) := by
      unfold INT_MIN
      omega
    have h2 : ¬ (width * height < 0) := by omega
    have h3 : ¬ (width = 0) := by omega
    have h4 : ¬ (height = 0) := by omega
    simp only [ctor, h1, h2, h3, h4, if_false,
      initializeSAT_nonpositive_width width height (by omega)]

/-- C17. The build is well defined for every positive size: for every width and height of
at least 1, every plane of `width*height` entries and every value function defined on the
offsets below `width*height`, the recorded `initializeSAT` runs to completion and leaves
the plane that `initializeSAT` computes; every recorded access is at an offset in
`[0, width*height)`; every offset below `width*height` is stored to exactly once; and
every read is of an offset stored to earlier in the pass. -/
theorem initializeSAT_well_defined (width height : Nat) (hw : 1 ≤ width) (hh : 1 ≤ height)
    (ptr : Array Int) (hptr : ptr.size = width * height) (l : Int → Option Int)
    (hl : ∀ i : Nat, i < width * height → ∃ v, l (i : Int) = some v) :
    ∃ r : Traced, initializeSATTraced (width : Int) (height : Int) ⟨ptr, []⟩ l = some r ∧
      initializeSAT (width : Int) (height : Int) ptr l = some r.ptr ∧
      (∀ a, a ∈ r.log → ∃ k : Nat, k < width * height ∧
        (a = Access.read (k : Int) ∨ a = Access.write (k : Int))) ∧
      (∀ k : Nat, k < width * height → r.log.count (Access.write (k : Int)) = 1) ∧
      (∀ (later earlier : List Access) (i : Int),
        r.log = later ++ Access.read i :: earlier → Access.write i ∈ earlier) := by
  obtain ⟨r, hr, _, hwo, hset⟩ := initializeSATTraced_spec width height hw hh l hl ptr hptr
  have herase := initializeSATTraced_erase (width : Int) (height : Int) ⟨ptr, []⟩ l
  rw [hr] at herase
  have hrange : ∀ i : Int, Access.write i ∈ r.log →
      ∃ k : Nat, k < width * height ∧ i = (k : Int) := by
    intro i hi
    obtain ⟨x, y, hx, hy, _, hxy⟩ := (hset i).1 hi
    exact ⟨y * width + x, idx_lt width height x y hx hy, hxy⟩
  refine ⟨r, hr, herase.symm, ?_, ?_, ?_⟩
  · intro a ha
    cases a with
    | read i =>
      obtain ⟨k, hk, hik⟩ := hrange i (wellOrdered_read_mem r.log i hwo ha)
      exact ⟨k, hk, Or.inl (by rw [hik])⟩
    | write i =>
      obtain ⟨k, hk, hik⟩ := hrange i ha
      exact ⟨k, hk, Or.inr (by rw [hik])⟩
  · intro k hk
    apply wellOrdered_count r.log _ hwo
    refine (hset _).2 ⟨k % width, k / width, Nat.mod_lt _ hw, ?_, trivial, ?_⟩
    · exact Nat.div_lt_of_lt_mul hk
    · have : k / width * width + k % width = k := by
        rw [Nat.mul_comm]; exact Nat.div_add_mod k width
      rw [this]
  · intro later earlier i hsplit
    rw [hsplit] at hwo
    exact (wellOrdered_suffix later _ hwo).1

/-- Witness of C17 on a plane of width 1 and height 3: both row loops run no iteration,
and the pass stores to the offsets 0, 1, 2 in this order, reading the cell above before
each of the last two stores. -/
theorem initializeSAT_well_defined_witness :
    ∃ r : Traced, initializeSATTraced 1 3 ⟨mkArray 3 0, []⟩ (sampleAt #[5, 6, 7]) = some r ∧
      r.ptr = #[5, 11, 18] ∧
      r.log = [Access.write 2, Access.read 1, Access.write 1, Access.read 0, Access.write 0] ∧
      r.log.count (Access.write 2) = 1 := by
  obtain ⟨r, hr, _, _, hcount, _⟩ := initializeSAT_well_defined 1 3 (by decide) (by decide)
    (mkArray 3 0) (by decide) (sampleAt #[5, 6, 7])
    (fun i hi => ⟨_, sampleAt_natCast #[5, 6, 7] i (by simpa using hi)⟩)
  have hval : some r = some (⟨#[5, 11, 18],
      [Access.write 2, Access.read 1, Access.write 1, Access.read 0, Access.write 0]⟩ : Traced) :=
    hr.symm.trans (by decide)
  have hre := Option.some.inj hval
  refine ⟨r, hr, ?_, ?_, hcount 2 (by decide)⟩
  · rw [hre]
  · rw [hre]

end SummedAreaTable
